import Mathlib

/-!
# Verification of the Gmail-to-Asana browser extension

Shallow embedding of the extension's content/background scripts:
the DOM extractor (`EmailExtractor`), the toolbar/message injector
(`GmailInjector`), the task-composer modal (`ProjectSelector`) and the
background message gateway.  Each JS function that a claim depends on is
translated into an executable Lean definition; DOM lookups become explicit
input records describing what the selector cascades found.

Layout: all definitions first, then all theorems.
-/

namespace GmailAsana

/-! ## Base64 attachment relay

`ProjectSelector.blobToBase64` encodes a blob's bytes as the base64 payload
of a data URL (`FileReader.readAsDataURL`, standard RFC 4648 base64 with
`=` padding) and sends it in an `UPLOAD_ATTACHMENT_BASE64` message.
The background handler decodes it with `atob` and rebuilds the bytes with
`charCodeAt` into a `Uint8Array`.  `b64EncodeBytes` models the encoder on
the byte list of the blob; `b64DecodeChars` models the composition of
`atob` with the `charCodeAt` loop (on padded base64, `atob` stops at the
`=` padding). -/

/-- The base64 alphabet: sextet value to character. -/
def sextetToChar (n : Nat) : Char :=
  if n < 26 then Char.ofNat ('A'.toNat + n)
  else if n < 52 then Char.ofNat ('a'.toNat + (n - 26))
  else if n < 62 then Char.ofNat ('0'.toNat + (n - 52))
  else if n = 62 then '+'
  else '/'

/-- The base64 alphabet: character back to sextet value (as `atob` reads it). -/
def charToSextet (c : Char) : Nat :=
  if 'A' ≤ c ∧ c ≤ 'Z' then c.toNat - 'A'.toNat
  else if 'a' ≤ c ∧ c ≤ 'z' then c.toNat - 'a'.toNat + 26
  else if '0' ≤ c ∧ c ≤ '9' then c.toNat - '0'.toNat + 52
  else if c = '+' then 62
  else 63

/-- Model of the base64 payload produced by `ProjectSelector.blobToBase64`
(the part of `reader.result` after the `data:...;base64,` prefix):
standard base64 of the blob's byte sequence, three bytes to four
characters, `=`-padded. -/
def b64EncodeBytes : List Nat → List Char
  | b0 :: b1 :: b2 :: rest =>
    sextetToChar (b0 / 4) :: sextetToChar (b0 % 4 * 16 + b1 / 16) ::
    sextetToChar (b1 % 16 * 4 + b2 / 64) :: sextetToChar (b2 % 64) ::
    b64EncodeBytes rest
  | [b0, b1] =>
    [sextetToChar (b0 / 4), sextetToChar (b0 % 4 * 16 + b1 / 16),
     sextetToChar (b1 % 16 * 4), '=']
  | [b0] =>
    [sextetToChar (b0 / 4), sextetToChar (b0 % 4 * 16), '=', '=']
  | [] => []

/-- Model of the gateway's decoding in the `UPLOAD_ATTACHMENT_BASE64`
handler: `atob(base64Data)` followed by the `charCodeAt` loop that fills
the `Uint8Array`.  Four characters yield three bytes; a `=` in the third
or fourth position ends the input with one or two bytes. -/
def b64DecodeChars : List Char → List Nat
  | c0 :: c1 :: c2 :: c3 :: rest =>
    if c2 = '=' then
      [charToSextet c0 * 4 + charToSextet c1 / 16]
    else if c3 = '=' then
      [charToSextet c0 * 4 + charToSextet c1 / 16,
       charToSextet c1 % 16 * 16 + charToSextet c2 / 4]
    else
      (charToSextet c0 * 4 + charToSextet c1 / 16) ::
      (charToSextet c1 % 16 * 16 + charToSextet c2 / 4) ::
      (charToSextet c2 % 4 * 64 + charToSextet c3) ::
      b64DecodeChars rest
  | _ => []

/-! ## Shared string helpers -/

/-- JS string-valued `a || b`: the empty string is the only falsy string. -/
def strOr (a b : String) : String := if a = "" then b else a

/-- JS `hay.includes(sub)` on char lists: `sub` occurs contiguously in `hay`. -/
def containsSub (sub : List Char) : List Char → Bool
  | [] => sub.isEmpty
  | c :: t => sub.isPrefixOf (c :: t) || containsSub sub t

/-! ## DOM extractor (`EmailExtractor`)

The extractor only reads the DOM, so each of its functions is modelled as a
pure function of an input record that lists what its selector queries
found, in DOM order.  A missing/empty text lookup is the empty string
(JS falsy); a missing node or attribute is `none`. -/

/-- The attachment record built by the extractor.  In the JS source the
per-message and whole-view extractors build `{name, url, size, id}` objects
(no placeholder flag, i.e. it reads back as falsy) while the thread scan
adds `messageIndex` and, for placeholders, `isCollapsedPlaceholder: true`;
absent fields are modelled by the defaults. -/
structure Attachment where
  name : String
  url : Option String := none
  size : String := ""
  id : String := ""
  isCollapsedPlaceholder : Bool := false
  messageIndex : Option Nat := none
deriving DecidableEq

/-- What the DOM yields for one attachment container (`.aZo`/`.aQH`, or
`.aZo`/`.aQH`/`.aQw` in the per-message variant): the trimmed name text
(`""` when the name element or its text is missing), the `href` of a
download link if present, a `data-id` attachment identifier if present,
and the trimmed size text (`""` when missing). -/
structure AttContainer where
  nameText : String
  downloadHref : Option String
  dataId : Option String
  sizeText : String
deriving DecidableEq

/-- Gmail download URL pattern built from a `data-id` attachment id
(`EmailExtractor.getAttachments` and `getAttachmentsFromMessage`). -/
def gmailAttachmentUrl (attachmentId : String) : String :=
  "https://mail.google.com/mail/u/0/?ui=2&ik=&attid=" ++ attachmentId ++ "&disp=safe"

/-- Source: `const name = nameElement?.textContent?.trim() || 'attachment'`. -/
def attContainerName (c : AttContainer) : String := strOr c.nameText "attachment"

/-- Source: `let url = downloadLink?.href; if (!url) { ... url = pattern(dataId) }`:
the download link wins, else the `data-id` pattern, else undefined. -/
def attContainerUrl (c : AttContainer) : Option String :=
  match c.downloadHref with
  | some u => some u
  | none => c.dataId.map gmailAttachmentUrl

/-- Loop body of `EmailExtractor.getAttachmentsFromMessage`: push
`{name, url, size, id}` unless an entry with the same name is already
present (`if (name && !attachments.find(a => a.name === name))`; the name
is never empty thanks to the `'attachment'` fallback). -/
def attFromMessageStep (acc : List Attachment) (c : AttContainer) : List Attachment :=
  let name := attContainerName c
  if acc.any (fun a => a.name == name) then acc
  else acc ++ [{ name := name, url := attContainerUrl c, size := c.sizeText,
                 id := "attachment-" ++ toString acc.length }]

/-- Model of `EmailExtractor.getAttachmentsFromMessage`: fold the loop body over the
attachment containers found inside one message container. -/
def getAttachmentsFromMessage (cs : List AttContainer) : List Attachment :=
  cs.foldl attFromMessageStep []

/-- Spec-side first-seen deduplication (for the refinement theorem about
`getAttachmentsFromMessage`): keep, per name, the `(name, url, size)`
triple of the first container bearing that name, in first-occurrence
order. -/
def dedupByNameSpec (seen : List String) : List AttContainer → List (String × Option String × String)
  | [] => []
  | c :: t =>
    let n := attContainerName c
    if seen.any (fun m => m == n) then dedupByNameSpec seen t
    else (n, attContainerUrl c, c.sizeText) :: dedupByNameSpec (seen ++ [n]) t

/-- What the DOM yields for one inline attachment container (`.aQw`) in
`EmailExtractor.getAttachments`: the name text (no fallback here) and the
`href` of the link around the download button. -/
structure InlineAtt where
  nameText : String
  downloadHref : Option String
deriving DecidableEq

/-- Input of the whole-view `EmailExtractor.getAttachments`: the containers
found by `.aZo, .aQH` and the inline containers found by `.aQw`. -/
structure WholeViewDom where
  mainContainers : List AttContainer
  inlineContainers : List InlineAtt
deriving DecidableEq

/-- Loop body of the first loop of `EmailExtractor.getAttachments`: every
`.aZo`/`.aQH` container is pushed (the guard is `if (name)` and the name
falls back to `'attachment'`, so it never blocks); there is no
duplicate-name check in this loop. -/
def mainPassStep (acc : List Attachment) (c : AttContainer) : List Attachment :=
  acc ++ [{ name := attContainerName c, url := attContainerUrl c, size := c.sizeText,
            id := "attachment-" ++ toString acc.length }]

/-- First loop of `EmailExtractor.getAttachments` over the `.aZo, .aQH`
containers. -/
def getAttachmentsMainPass (cs : List AttContainer) : List Attachment :=
  cs.foldl mainPassStep []

/-- Second loop of `EmailExtractor.getAttachments` (inline `.aQw`
containers): skipped when the name is missing or an entry with that name
already exists. -/
def inlinePassStep (acc : List Attachment) (c : InlineAtt) : List Attachment :=
  if c.nameText = "" then acc
  else if acc.any (fun a => a.name == c.nameText) then acc
  else acc ++ [{ name := c.nameText, url := c.downloadHref, size := "",
                 id := "attachment-" ++ toString acc.length }]

/-- Model of `EmailExtractor.getAttachments`: main pass, then inline pass. -/
def getAttachments (dom : WholeViewDom) : List Attachment :=
  dom.inlineContainers.foldl inlinePassStep (getAttachmentsMainPass dom.mainContainers)

/-! ### Whole-thread scan (`EmailExtractor.getAllThreadAttachments`) -/

/-- What the DOM yields for one attachment container found anywhere in the
page by the thread scan selector list: the parent message container that
`container.closest('.gs') || ... || container.closest('.gE')` resolves to
(`none` models the `'global'` key), the name cascade result
(`nameEl?.textContent?.trim() || data-tooltip || aria-label`, `""` when
all fail), the download link `href`, and the size text. -/
structure ThreadAttContainer where
  msgKey : Option Nat
  nameRes : String
  downloadHref : Option String
  sizeText : String
deriving DecidableEq

/-- What the DOM yields for one collapsed row (`.kv, .kQ, .h7:not(.gs)`):
the trimmed text of the attachment count badge when a badge element was
found, whether a paperclip indicator was found, and the results of
`getSenderFromCollapsed` / `getDateFromCollapsed` on the row. -/
structure CollapsedRow where
  countBadgeText : Option String
  hasClipIcon : Bool
  senderText : String
  dateText : String
deriving DecidableEq

/-- Per-message metadata lookups used by the thread scan, plus the
localized placeholder label (`i18n.t('collapsedAttachments')`). -/
structure ThreadDom where
  attContainers : List ThreadAttContainer
  collapsedRows : List CollapsedRow
  senderOf : Nat → String
  dateOf : Nat → String
  msgIdOf : Nat → String
  placeholderText : String

/-- An attachment as stored in the grouping map (`{name, url, size}`;
the `url` here is `downloadLink?.href || ''`, a plain string). -/
structure RawAtt where
  name : String
  url : String
  size : String
deriving DecidableEq

/-- Loop body of the thread scan's grouping pass: ensure a group exists for
the container's message key (insertion order, like a JS `Map`), then — if
the name cascade produced something and the group has no entry with that
name — push `{name, url, size}` into the group. -/
def threadGroupStep (groups : List (Option Nat × List RawAtt)) (c : ThreadAttContainer) :
    List (Option Nat × List RawAtt) :=
  let groups := if groups.any (fun g => g.1 == c.msgKey) then groups
                else groups ++ [(c.msgKey, [])]
  if c.nameRes = "" then groups
  else groups.map (fun g =>
    if g.1 == c.msgKey then
      if g.2.any (fun a => a.name == c.nameRes) then g
      else (g.1, g.2 ++ [{ name := c.nameRes, url := c.downloadHref.getD "", size := c.sizeText }])
    else g)

/-- One message of the thread scan result.  The JS objects carry `index`,
`sender`, `date`, `messageId`, `attachments`, `expanded`, and on collapsed
messages also `attachmentCount` (and a DOM node `collapsedElement`, which
has no observable content and is omitted). -/
structure ThreadMsg where
  index : Nat
  sender : String
  date : String
  messageId : Option String
  attachments : List Attachment
  expanded : Bool
  attachmentCount : Option String := none
deriving DecidableEq

/-- The `data.attachments.forEach((att, attIndex) => ...)` pass of the thread
scan: stamp id `msg{gIdx}-att{attIndex}` and `messageIndex` on each grouped
attachment, keeping name, url (a plain string there, hence `some`) and
size. -/
def stampAtts (gIdx : Nat) : List RawAtt → Nat → List Attachment
  | [], _ => []
  | a :: t, j =>
    { name := a.name, url := some a.url, size := a.size,
      id := "msg" ++ toString gIdx ++ "-att" ++ toString j,
      messageIndex := some gIdx } :: stampAtts gIdx t (j + 1)

/-- Second pass of the thread scan's strategy 1: turn each nonempty group
into a message object (skipping empty groups), numbering messages with the
running `globalIndex` and stamping ids `msg{i}-att{j}` on the attachments.
The `'global'` group gets sender `'Pièces jointes'` and no metadata. -/
def buildExpandedMsgs (dom : ThreadDom) : List (Option Nat × List RawAtt) → Nat → List ThreadMsg
  | [], _ => []
  | g :: rest, gIdx =>
    if g.2.isEmpty then buildExpandedMsgs dom rest gIdx
    else
      { index := gIdx,
        sender := match g.1 with | some k => dom.senderOf k | none => "Pièces jointes",
        date := match g.1 with | some k => dom.dateOf k | none => "",
        messageId := match g.1 with | some k => some (dom.msgIdOf k) | none => none,
        attachments := stampAtts gIdx g.2 0,
        expanded := true } :: buildExpandedMsgs dom rest (gIdx + 1)

/-- The placeholder attachment pushed for a collapsed message carrying the
count hint. -/
def placeholderAtt (dom : ThreadDom) (gIdx : Nat) (count : String) : Attachment :=
  { name := dom.placeholderText ++ " (" ++ count ++ ")",
    url := none, size := "",
    id := "msg" ++ toString gIdx ++ "-collapsed",
    isCollapsedPlaceholder := true,
    messageIndex := some gIdx }

/-- Loop body of the thread scan's strategy 2 (collapsed rows): when the
row shows a count badge or a paperclip indicator, and no already-collected
message's sender is a prefix word of the row's sender
(`messages.find(m => m.sender && rowSender.includes(m.sender.split(' ')[0]))`),
push a collapsed message whose only attachment is the placeholder. -/
def collapsedStep (dom : ThreadDom) (st : List ThreadMsg × Nat) (row : CollapsedRow) :
    List ThreadMsg × Nat :=
  if row.countBadgeText.isSome || row.hasClipIcon then
    if st.1.any (fun m => m.sender != "" &&
        containsSub ((m.sender.splitOn " ").headD "").toList row.senderText.toList) then st
    else
      let count := strOr (row.countBadgeText.getD "") "?"
      (st.1 ++ [{ index := st.2,
                  sender := strOr row.senderText "Message replié",
                  date := row.dateText,
                  messageId := none,
                  attachments := [placeholderAtt dom st.2 count],
                  expanded := false,
                  attachmentCount := some count }], st.2 + 1)
  else st

/-- Model of `EmailExtractor.getAllThreadAttachments`: group every attachment
container by parent message (strategy 1), then append one placeholder-only
collapsed message per collapsed row with an attachment indicator
(strategy 2). -/
def getAllThreadAttachments (dom : ThreadDom) : List ThreadMsg :=
  let expandedMsgs := buildExpandedMsgs dom (dom.attContainers.foldl threadGroupStep []) 0
  (dom.collapsedRows.foldl (collapsedStep dom) (expandedMsgs, expandedMsgs.length)).1

/-- The shape every collapsed message of the thread scan has: an
`attachmentCount` hint and exactly one placeholder attachment carrying it. -/
def collapsedShape (dom : ThreadDom) (m : ThreadMsg) : Prop :=
  ∃ cnt, m.attachmentCount = some cnt ∧ m.attachments = [placeholderAtt dom m.index cnt]

/-! ### Concrete extractor inputs used by witnesses and counterexamples -/

/-- A thread DOM with no expanded message and one collapsed row showing a
count badge of `3`. -/
def threadDomCollapsedEx : ThreadDom :=
  { attContainers := [],
    collapsedRows := [{ countBadgeText := some "3", hasClipIcon := false, senderText := "Zoe", dateText := "" }],
    senderOf := fun _ => "", dateOf := fun _ => "", msgIdOf := fun _ => "",
    placeholderText := "P" }

/-- The single (collapsed) message the thread scan produces on
`threadDomCollapsedEx`. -/
def collapsedMsgEx : ThreadMsg :=
  { index := 0, sender := "Zoe", date := "", messageId := none,
    attachments := [placeholderAtt threadDomCollapsedEx 0 "3"],
    expanded := false, attachmentCount := some "3" }

/-- A whole-view DOM whose main pass sees two attachment cards with the
same file name. -/
def wholeViewDupEx : WholeViewDom :=
  { mainContainers :=
      [{ nameText := "facture.pdf", downloadHref := some "u1", dataId := none, sizeText := "" },
       { nameText := "facture.pdf", downloadHref := some "u2", dataId := none, sizeText := "" }],
    inlineContainers := [] }

/-- A thread DOM where two different messages each contain an attachment
with the same name (no cross-message deduplication is expected). -/
def threadDomCrossEx : ThreadDom :=
  { attContainers :=
      [{ msgKey := some 0, nameRes := "a.pdf", downloadHref := some "u1", sizeText := "" },
       { msgKey := some 1, nameRes := "a.pdf", downloadHref := some "u2", sizeText := "" }],
    collapsedRows := [],
    senderOf := fun _ => "", dateOf := fun _ => "", msgIdOf := fun _ => "",
    placeholderText := "P" }

/-- The first message the thread scan produces on `threadDomCrossEx`. -/
def crossMsg0 : ThreadMsg :=
  { index := 0, sender := "", date := "", messageId := some "",
    attachments := [{ name := "a.pdf", url := some "u1", size := "",
                      id := "msg0-att0", messageIndex := some 0 }],
    expanded := true }

/-! ## Change observer / injector (`GmailInjector.injectButtons`)

`injectButtons` runs a toolbar sweep and three per-message discovery
strategies over the current DOM.  Containers are modelled by identities
(`Nat`); the DOM input lists, for each sweep, the container each found
element resolves to (`querySelectorAll` plus `closest`), with Boolean
lookups for the insertion areas the code requires.  The mutable state is
the `injectedButtons` WeakSet (marked containers) plus the appended
trigger elements, recorded as (kind, container) pairs — a trigger lives
inside its container's subtree, so `container.querySelector(...)` finds
exactly the triggers recorded at that container. -/

/-- The two trigger kinds: `.asana-gmail-btn` (toolbar) and
`.asana-gmail-btn-mini` (per-message). -/
inductive BtnKind where
  | toolbarBtn
  | miniBtn
deriving DecidableEq

/-- Injector state: the `injectedButtons` WeakSet and the appended
triggers. -/
structure InjState where
  marked : List Nat
  btns : List (BtnKind × Nat)
deriving DecidableEq

/-- The state before any injection. -/
def emptyInjState : InjState := { marked := [], btns := [] }

/-- Number of triggers of kind `k` inside container `c`
(`container.querySelector('.asana-gmail-btn')` /
`...('.asana-gmail-btn-mini')` finds one iff this is positive). -/
def btnCount (st : InjState) (k : BtnKind) (c : Nat) : Nat :=
  (st.btns.filter (fun b => b == (k, c))).length

/-- Total number of triggers (of both kinds) inside container `c`. -/
def trigCount (st : InjState) (c : Nat) : Nat :=
  (st.btns.filter (fun b => b.2 == c)).length

/-- The shared shape of all four injection loops:
`if (this.injectedButtons.has(container)) return;`
`if (container.querySelector(btnClass)) return;`
then, when the required insertion area exists, append one trigger and add
the container to the WeakSet. -/
def ensureStep (k : BtnKind) (eligible : Nat → Bool) (st : InjState) (c : Nat) : InjState :=
  if st.marked.any (fun m => m == c) then st
  else if 0 < btnCount st k c then st
  else if eligible c then { marked := st.marked ++ [c], btns := st.btns ++ [(k, c)] }
  else st

/-- The DOM as the injector's queries see it: the toolbars found by the
toolbar selector list (in order, across the three selectors), the
message containers found by `.gs` (strategy 1), by `[data-message-id]`
(strategy 2), and the container each `.gE .gD, .gH .gD` sender element
resolves to via `closest` (strategy 3, `none` when no container).
The Boolean lookups say whether the per-strategy insertion areas exist
(`insertPoint` for toolbars; header and actions area for strategy 1,
including its date-element fallback; actions area for strategy 2;
sender row for strategy 3). -/
structure InjDom where
  toolbars : List Nat
  toolbarHasInsertPoint : Nat → Bool
  gsMessages : List Nat
  gsHasHeader : Nat → Bool
  gsHasActions : Nat → Bool
  midMessages : List Nat
  midHasActions : Nat → Bool
  senderResolved : List (Option Nat)
  senderHasRow : Nat → Bool

/-- Model of `GmailInjector.injectToolbarButtons`. -/
def injectToolbarButtons (dom : InjDom) (st : InjState) : InjState :=
  dom.toolbars.foldl (ensureStep .toolbarBtn dom.toolbarHasInsertPoint) st

/-- Model of `GmailInjector.injectMessageButtons`: the three strategies in source
order. -/
def injectMessageButtons (dom : InjDom) (st : InjState) : InjState :=
  ((dom.senderResolved.filterMap id).foldl (ensureStep .miniBtn dom.senderHasRow)
    (dom.midMessages.foldl (ensureStep .miniBtn dom.midHasActions)
      (dom.gsMessages.foldl
        (ensureStep .miniBtn (fun c => dom.gsHasHeader c && dom.gsHasActions c)) st)))

/-- Model of `GmailInjector.injectButtons`: toolbar sweep, then message sweep. -/
def injectButtons (dom : InjDom) (st : InjState) : InjState :=
  injectMessageButtons dom (injectToolbarButtons dom st)

/-- A container is discovered (by at least one strategy, with the
insertion area it needs) in the current DOM. -/
def discoverable (dom : InjDom) (c : Nat) : Bool :=
  (dom.toolbars.contains c && dom.toolbarHasInsertPoint c) ||
  (dom.gsMessages.contains c && dom.gsHasHeader c && dom.gsHasActions c) ||
  (dom.midMessages.contains c && dom.midHasActions c) ||
  ((dom.senderResolved.filterMap id).contains c && dom.senderHasRow c)

/-- A container is settled for a sweep when that sweep's loop body can no
longer change the state at it: it is in the WeakSet, already carries a
trigger of the sweep's kind, or lacks the insertion area. -/
def settled (k : BtnKind) (eligible : Nat → Bool) (st : InjState) (c : Nat) : Prop :=
  c ∈ st.marked ∨ 0 < btnCount st k c ∨ eligible c = false

/-- A DOM where container 0 is discovered by all three message strategies
and container 10 is a toolbar. -/
def injDomEx : InjDom :=
  { toolbars := [10], toolbarHasInsertPoint := fun _ => true,
    gsMessages := [0], gsHasHeader := fun _ => true, gsHasActions := fun _ => true,
    midMessages := [0], midHasActions := fun _ => true,
    senderResolved := [some 0, none], senderHasRow := fun _ => true }

/-! ## Task composer (`ProjectSelector`): note-body assembly (C5)

`escapeHtml` goes through the DOM (`div.textContent = text; div.innerHTML`),
which serializes the text escaping `&`, `<`, `>` and the non-breaking
space; the guard `if (!text) return ''` maps the empty string to itself. -/

/-- Serialization of one character by the `textContent`/`innerHTML`
round-trip. -/
def escChar (c : Char) : String :=
  if c = '&' then "&amp;"
  else if c = '<' then "&lt;"
  else if c = '>' then "&gt;"
  else if c = '\u00A0' then "&nbsp;"
  else String.singleton c

/-- Model of `ProjectSelector.escapeHtml`. -/
def escapeHtml (text : String) : String :=
  if text = "" then "" else String.join (text.toList.map escChar)

/-- Source: `.replace(/\n{3,}/g, '\n\n')`: every maximal run of newlines of length
at least three collapses to exactly two (shorter runs are kept), i.e.
each run of `n ≥ 1` newlines becomes `min n 2`.  The accumulator counts
the pending newline run. -/
def collapseNewlines : List Char → Nat → List Char
  | [], n => List.replicate (min n 2) '\n'
  | c :: t, n =>
    if c = '\n' then collapseNewlines t (n + 1)
    else List.replicate (min n 2) '\n' ++ c :: collapseNewlines t 0

/-- The JS `\s` class, restricted to the characters that can occur here. -/
def isJsWs (c : Char) : Bool :=
  c = ' ' || c = '\t' || c = '\n' || c = '\r' || c = '\x0b' || c = '\x0c' || c = '\u00A0'

/-- Source: `.replace(/^\s+|\s+$/g, '')`: strip leading and trailing whitespace. -/
def trimEnds (l : List Char) : List Char :=
  ((l.dropWhile isJsWs).reverse.dropWhile isJsWs).reverse

/-- JS `String.prototype.trim()`. -/
def jsTrim (s : String) : String := String.mk (trimEnds s.toList)

/-- The `cleanBody` computed for the quoted-body section: escape, collapse
newline runs, trim. -/
def cleanBodyText (body : String) : String :=
  String.mk (trimEnds (collapseNewlines (escapeHtml body).toList 0))

/-- The fields of the extracted `EmailContext` the composer reads
(missing text lookups are `""`, a missing EML reference is `none`). -/
structure EmailData where
  subject : String := ""
  sender : String := ""
  date : String := ""
  body : String := ""
  emailUrl : String := ""
  emlDownloadUrl : Option String := none
deriving DecidableEq

/-- The note body assembled by `ProjectSelector.createTask` (create mode):
`<body>`, sender line, date line, Gmail link, quoted body, `</body>`.
`tFrom` is the localized `this.t('from')` label. -/
def createTaskHtmlNotes (tFrom : String) (e : EmailData) (includeLink includeBody : Bool) :
    String :=
  "<body>"
  ++ (if e.sender ≠ "" then tFrom ++ " " ++ escapeHtml e.sender ++ "\n" else "")
  ++ (if e.date ≠ "" then "Date: " ++ escapeHtml e.date ++ "\n" else "")
  ++ (if includeLink = true ∧ e.emailUrl ≠ "" then
        "\n<a href=\"" ++ escapeHtml e.emailUrl ++ "\">Ouvrir dans Gmail</a>\n" else "")
  ++ (if includeBody = true ∧ e.body ≠ "" then
        "\n<blockquote>" ++ cleanBodyText e.body ++ "</blockquote>" else "")
  ++ "</body>"

/-- Spec-side section: the sender line (no toggle; included when the data
is non-empty). -/
def senderSection (tFrom : String) (e : EmailData) : String :=
  if e.sender ≠ "" then tFrom ++ " " ++ escapeHtml e.sender ++ "\n" else ""

/-- Spec-side section: the date line (no toggle; included when the data is
non-empty). -/
def dateSection (e : EmailData) : String :=
  if e.date ≠ "" then "Date: " ++ escapeHtml e.date ++ "\n" else ""

/-- Spec-side section: the back-link, included exactly when its toggle is
on and the URL is non-empty. -/
def linkSection (e : EmailData) (includeLink : Bool) : String :=
  if includeLink = true ∧ e.emailUrl ≠ "" then
    "\n<a href=\"" ++ escapeHtml e.emailUrl ++ "\">Ouvrir dans Gmail</a>\n" else ""

/-- Spec-side section: the HTML-escaped quoted body, included exactly when
its toggle is on and the body is non-empty. -/
def bodySection (e : EmailData) (includeBody : Bool) : String :=
  if includeBody = true ∧ e.body ≠ "" then
    "\n<blockquote>" ++ cleanBodyText e.body ++ "</blockquote>" else ""

/-! ## Task composer: selections and workspace switching (C1) -/

/-- An Asana project (the fields the composer uses). -/
structure Project where
  gid : String
  name : String
deriving DecidableEq

/-- An Asana tag. -/
structure Tag where
  gid : String
  name : String
deriving DecidableEq

/-- An Asana user. -/
structure UserRec where
  gid : String
  name : String
deriving DecidableEq

/-- An Asana task reference (creation response / search result). -/
structure TaskRef where
  gid : String
  name : String
deriving DecidableEq

/-- A project custom-field definition as `getProjectCustomFields` maps it. -/
structure CustomFieldDef where
  gid : String
  name : String
  ftype : String
deriving DecidableEq

/-- The stored preferences record.  Absent string fields of the JS object
read as falsy and are modelled by `""`. -/
structure Prefs where
  defaultWorkspace : String := ""
  defaultProject : String := ""
  lastWorkspaceId : String := ""
  lastProjectId : String := ""
deriving DecidableEq

/-- The `ProjectSelector` selection state read and written by
`onWorkspaceChange` and `selectProject` (the custom-field value map is an
association list `field gid → value`). -/
structure ComposerState where
  selectedProject : Option Project := none
  selectedTags : List Tag := []
  selectedExistingTask : Option TaskRef := none
  customFields : List CustomFieldDef := []
  customFieldValues : List (String × String) := []
  projects : List Project := []
  users : List UserRec := []
  tags : List Tag := []
  preferences : Prefs := {}
deriving DecidableEq

/-- Model of `savePreferences({lastProjectId})`: merge into `this.preferences`
(the persisted write goes through the gateway and has no further effect
on composer state). -/
def saveLastProject (p : Prefs) (gid : String) : Prefs := { p with lastProjectId := gid }

/-- Model of `savePreferences({lastWorkspaceId})`. -/
def saveLastWorkspace (p : Prefs) (wid : String) : Prefs := { p with lastWorkspaceId := wid }

/-- Gateway responses consumed by the workspace-change flow: the parallel
`GET_PROJECTS`/`GET_USERS`/`GET_TAGS` load (failing as one, via the
`Promise.all` catch) and `GET_PROJECT_CUSTOM_FIELDS`. -/
structure WorkspaceEnv where
  loadData : String → Except String (List Project × List UserRec × List Tag)
  customFieldsOf : String → Except String (List CustomFieldDef)

/-- Model of `ProjectSelector.loadCustomFields`: store the definitions; when any
exist, reset `customFieldValues` and render.  On failure the state is
unchanged (the catch only hides the section; in the error-response case
the subsequent render throw is caught the same way and no usable field
values remain either). -/
def loadCustomFields (env : WorkspaceEnv) (st : ComposerState) (projectId : String) :
    ComposerState :=
  match env.customFieldsOf projectId with
  | .ok fields =>
    if fields.isEmpty then { st with customFields := fields }
    else { st with customFields := fields, customFieldValues := [] }
  | .error _ => st

/-- Model of `ProjectSelector.selectProject`: set the selection, persist it as
last-used, and load the project's custom-field definitions. -/
def selectProject (env : WorkspaceEnv) (st : ComposerState) (p : Project) : ComposerState :=
  loadCustomFields env
    { st with selectedProject := some p,
              preferences := saveLastProject st.preferences p.gid } p.gid

/-- The `if (projectToSelect) { const project = this.projects.find(...);
if (project) this.selectProject(project); }` block of
`onWorkspaceChange`. -/
def applyProjectAutoSelect (env : WorkspaceEnv) (st : ComposerState) (pts : String) :
    ComposerState :=
  if pts ≠ "" then
    match st.projects.find? (fun p => p.gid == pts) with
    | some p => selectProject env st p
    | none => st
  else st

/-- Model of `ProjectSelector.onWorkspaceChange`: reset the selected project, tags,
existing-task selection, custom fields and custom-field values; when a
workspace is chosen and the parallel load succeeds, store the lists,
auto-select the default project (`autoSelectDefaults`) or restore the
last-used project when its gid exists in the new list, and persist the
workspace as last-used.  On load failure only the resets apply. -/
def onWorkspaceChange (env : WorkspaceEnv) (st : ComposerState) (workspaceId : String)
    (autoSelectDefaults : Bool) : ComposerState :=
  let st0 := { st with selectedProject := none, selectedTags := [],
                       selectedExistingTask := none, customFields := [],
                       customFieldValues := ([] : List (String × String)) }
  if workspaceId = "" then st0
  else
    match env.loadData workspaceId with
    | .error _ => st0
    | .ok (projects, users, tags) =>
      let st1 := { st0 with projects := projects, users := users, tags := tags }
      let projectToSelect :=
        if autoSelectDefaults = true ∧ st1.preferences.defaultProject ≠ "" then
          st1.preferences.defaultProject
        else st1.preferences.lastProjectId
      let st2 := applyProjectAutoSelect env st1 projectToSelect
      { st2 with preferences := saveLastWorkspace st2.preferences workspaceId }

/-- The project selected under `W1` in the C1 scenario. -/
def projP1 : Project := { gid := "P1", name := "Projet" }

/-- The distinct project object with the same gid exposed by `W2`. -/
def projP1W2 : Project := { gid := "P1", name := "Autre" }

/-- Environment for the C1 scenario: `W2` exposes a project whose gid
equals `P1`; custom-field lookups return no fields. -/
def wsEnvEx : WorkspaceEnv :=
  { loadData := fun wid =>
      if wid = "W2" then .ok ([projP1W2], [], []) else .ok ([projP1], [], []),
    customFieldsOf := fun _ => .ok [] }

/-! ## Task composer: submission (C6, C8)

The submission flow is modelled as the list of network-visible steps it
performs, in order, together with the outcome shown in the status area.
Downloads run in the page context and return `null` on failure
(`downloadAttachment` catches internally); `uploadBlobToAsana` throws on
an error response, and each post-creation block wraps its own try/catch,
whose catch logs and drops the error — modelled by discarding the upload
result after recording the attempt. -/

/-- Model of `asanaClient.getTaskUrl` / the task link built after creation. -/
def taskUrl (gid : String) : String := "https://app.asana.com/0/0/" ++ gid

/-- One step of the submission flow visible at the network / host-page
boundary. -/
inductive SubmitStep where
  | createTask (projectId : String) (name : String)
  | addComment (taskId : String)
  | downloadEml (url : String)
  | uploadEml (taskId : String) (filename : String)
  | downloadAtt (url : String)
  | uploadAtt (taskId : String) (name : String)
  | applyLabel
  | notify (url : String)
deriving DecidableEq

/-- The outcome surfaced in the modal status area. -/
inductive SubmitOutcome where
  | validationError (key : String)
  | failure (message : String)
  | success (taskGid : String)
deriving DecidableEq

/-- A checked attachment checkbox: `{url: checkbox.dataset.url, name}`;
`data-url` is `att.url || ''`, so a missing reference is `""`. -/
structure SelAtt where
  url : String
  name : String
deriving DecidableEq

/-- The form state `createTask`/`addCommentToTask` reads at submission
(`taskName` is the raw input value; the source trims it at read). -/
structure SubmitForm where
  mode : String
  taskName : String
  includeBody : Bool
  includeLink : Bool
  attachEml : Bool
  addGmailLabel : Bool
  selectedAttachments : List SelAtt
deriving DecidableEq

/-- The network responses the submission flow can observe: the CREATE_TASK
and ADD_COMMENT responses, the page-context downloads (`none` models the
caught-and-null failure; a blob is represented by its byte size), and the
UPLOAD_ATTACHMENT_BASE64 responses keyed by filename. -/
structure SubmitEnv where
  createResult : Except String TaskRef
  commentResult : Except String Unit
  download : String → Option Nat
  uploadResult : String → Except String Unit
deriving Inhabited

/-- The EML attachment filename: subject truncated to 50 characters,
non-alphanumerics replaced by `_`, `.eml` appended (empty subject falls
back to `email`). -/
def emlFilename (subject : String) : String :=
  String.mk (((strOr subject "email").toList.take 50).map
    (fun c => if c.isAlpha || c.isDigit then c else '_')) ++ ".eml"

/-- The EML block (`if (attachEml) { ... }`): download in page context;
upload only a non-null, non-empty blob; the surrounding try/catch drops
any upload failure after the attempt. -/
def emlSteps (env : SubmitEnv) (taskGid : String) (f : SubmitForm) (e : EmailData) :
    List SubmitStep :=
  if f.attachEml then
    match e.emlDownloadUrl with
    | some u =>
      SubmitStep.downloadEml u ::
      (match env.download u with
       | some size => if 0 < size then [SubmitStep.uploadEml taskGid (emlFilename e.subject)] else []
       | none => [])
    | none => []
  else []

/-- One iteration of the sequential attachment loop: skip an empty
`data-url`; otherwise download, and upload when the blob is non-null.
The per-iteration catch is the discarded upload result. -/
def uploadOneAtt (env : SubmitEnv) (taskGid : String) (a : SelAtt) :
    List SubmitStep × Except String Unit :=
  if a.url ≠ "" then
    match env.download a.url with
    | some _ => ([SubmitStep.downloadAtt a.url, SubmitStep.uploadAtt taskGid a.name],
                 env.uploadResult a.name)
    | none => ([SubmitStep.downloadAtt a.url], Except.ok ())
  else ([], Except.ok ())

/-- The sequential attachment loop; each iteration's caught error is
logged and dropped. -/
def attachmentSteps (env : SubmitEnv) (taskGid : String) : List SelAtt → List SubmitStep
  | [] => []
  | a :: t => (uploadOneAtt env taskGid a).1 ++ attachmentSteps env taskGid t

/-- The label block: `addGmailLabel` catches internally and never throws. -/
def labelSteps (f : SubmitForm) : List SubmitStep :=
  if f.addGmailLabel then [SubmitStep.applyLabel] else []

/-- Model of `ProjectSelector.createTask` in create mode: validate name and project
locally (no step issued on failure), create the task (the outer catch
turns an error response into a failure outcome), then run the three
best-effort post-creation blocks and report success with a notification. -/
def runCreateSubmit (env : SubmitEnv) (st : ComposerState) (f : SubmitForm) (e : EmailData) :
    List SubmitStep × SubmitOutcome :=
  let taskName := jsTrim f.taskName
  if taskName = "" then ([], .validationError "errorEnterTaskName")
  else
    match st.selectedProject with
    | none => ([], .validationError "errorSelectProject")
    | some proj =>
      match env.createResult with
      | .error msg => ([SubmitStep.createTask proj.gid taskName], .failure msg)
      | .ok task =>
        ([SubmitStep.createTask proj.gid taskName] ++ emlSteps env task.gid f e ++
          attachmentSteps env task.gid f.selectedAttachments ++ labelSteps f ++
          [SubmitStep.notify (taskUrl task.gid)], .success task.gid)

/-- Model of `ProjectSelector.addCommentToTask` (linkExisting mode): require an
existing-task selection locally, add the comment, then the same
best-effort post steps. -/
def runCommentSubmit (env : SubmitEnv) (st : ComposerState) (f : SubmitForm) (e : EmailData) :
    List SubmitStep × SubmitOutcome :=
  match st.selectedExistingTask with
  | none => ([], .validationError "noTasksFound")
  | some task =>
    match env.commentResult with
    | .error msg => ([SubmitStep.addComment task.gid], .failure msg)
    | .ok _ =>
      ([SubmitStep.addComment task.gid] ++ emlSteps env task.gid f e ++
        attachmentSteps env task.gid f.selectedAttachments ++ labelSteps f ++
        [SubmitStep.notify (taskUrl task.gid)], .success task.gid)

/-- The `createTask` entry point: comment mode dispatches to
`addCommentToTask` first. -/
def runSubmit (env : SubmitEnv) (st : ComposerState) (f : SubmitForm) (e : EmailData) :
    List SubmitStep × SubmitOutcome :=
  if f.mode = "comment" then runCommentSubmit env st f e else runCreateSubmit env st f e

/-- A submission environment where the first attachment's download fails
and every upload is rejected. -/
def submitEnvFailEx : SubmitEnv :=
  { createResult := .ok { gid := "T1", name := "Invoice" },
    commentResult := .ok (),
    download := fun u => if u = "u1" then none else some 5,
    uploadResult := fun _ => .error "upload failed" }

/-- A create-mode form with two selected attachments. -/
def formEx : SubmitForm :=
  { mode := "create", taskName := " Invoice 42 ", includeBody := true, includeLink := true,
    attachEml := false, addGmailLabel := true,
    selectedAttachments := [{ url := "u1", name := "a.pdf" }, { url := "u2", name := "b.pdf" }] }

/-- A composer state with project `P1` selected. -/
def composerP1 : ComposerState := { selectedProject := some projP1 }

/-- A create-mode form with a task name but (paired with an empty composer
state) no selected project. -/
def formNoProj : SubmitForm :=
  { mode := "create", taskName := "X", includeBody := true, includeLink := true,
    attachEml := false, addGmailLabel := false, selectedAttachments := [] }

/-- A concrete extracted email context. -/
def emailDataEx : EmailData :=
  { subject := "Invoice 42", sender := "a@x.com", body := "Please pay",
    emailUrl := "https://mail.example/x" }

/-! ## API gateway (C9)

The background service worker's message listener.  Asana/API payloads are
opaque to the dispatch logic and are modelled as string tokens; what the
claims concern is the control flow: every handler either resolves with a
plain result or rejects, and the listener's `.catch` turns any rejection
into `{error: message}`. -/

/-- A gateway request: `message.type` plus the parameter fields the
handlers read. -/
structure RpcMessage where
  mtype : String
  workspaceId : String := ""
  projectId : String := ""
  taskId : String := ""
  query : String := ""
  text : String := ""
  htmlText : String := ""
  url : String := ""
  filename : String := ""
  mimeType : String := ""
  attachmentUrl : String := ""
  base64Data : List Char := []
  taskData : String := ""
  preferences : String := ""
deriving DecidableEq

/-- The gateway's response: a plain result value or `{error: message}`. -/
inductive RpcResponse where
  | result (payload : String)
  | errorObj (message : String)
deriving DecidableEq

/-- The Asana-client / storage calls the handlers await, as the gateway
observes them: each resolves with a payload token or rejects with an
error message. -/
structure GatewayEnv where
  checkSession : Except String String
  getWorkspaces : Except String String
  getProjects : String → Except String String
  getUsers : String → Except String String
  getTags : String → Except String String
  createTask : String → Except String String
  downloadGmail : String → Except String (List Nat)
  uploadAttachment : String → List Nat → String → Except String String
  searchTasks : String → String → Except String String
  addComment : String → String → String → Except String String
  getProjectCustomFields : String → Except String String
  getTask : String → Except String String
  savePrefs : String → Except String Unit
  getPrefs : Except String String

/-- Model of `handleMessage`: dispatch on `message.type`; any awaited call may
reject (propagating the error), `GET_TASK_URL` and `SHOW_NOTIFICATION`
resolve directly, `UPLOAD_ATTACHMENT_BASE64` decodes its payload with
`atob` (`b64DecodeChars`), and the `default` branch throws
`Unknown message type`. -/
def handleMessage (env : GatewayEnv) (m : RpcMessage) : Except String String :=
  if m.mtype = "CHECK_SESSION" then env.checkSession
  else if m.mtype = "GET_WORKSPACES" then env.getWorkspaces
  else if m.mtype = "GET_PROJECTS" then env.getProjects m.workspaceId
  else if m.mtype = "GET_USERS" then env.getUsers m.workspaceId
  else if m.mtype = "GET_TAGS" then env.getTags m.workspaceId
  else if m.mtype = "CREATE_TASK" then env.createTask m.taskData
  else if m.mtype = "UPLOAD_ATTACHMENT" then
    match env.downloadGmail m.attachmentUrl with
    | .error e => .error e
    | .ok blob => env.uploadAttachment m.taskId blob m.filename
  else if m.mtype = "UPLOAD_ATTACHMENT_BASE64" then
    env.uploadAttachment m.taskId (b64DecodeChars m.base64Data) m.filename
  else if m.mtype = "GET_TASK_URL" then .ok (taskUrl m.taskId)
  else if m.mtype = "SEARCH_TASKS" then env.searchTasks m.workspaceId m.query
  else if m.mtype = "ADD_COMMENT" then env.addComment m.taskId m.text m.htmlText
  else if m.mtype = "GET_PROJECT_CUSTOM_FIELDS" then env.getProjectCustomFields m.projectId
  else if m.mtype = "GET_TASK" then env.getTask m.taskId
  else if m.mtype = "SHOW_NOTIFICATION" then .ok "success"
  else if m.mtype = "SAVE_PREFERENCES" then
    match env.savePrefs m.preferences with
    | .ok _ => .ok "success"
    | .error e => .error e
  else if m.mtype = "GET_PREFERENCES" then env.getPrefs
  else .error ("Unknown message type: " ++ m.mtype)

/-- The `chrome.runtime.onMessage` listener:
`handleMessage(message).then(sendResponse).catch(e => sendResponse({error: e.message}))`. -/
def listenerResponse (env : GatewayEnv) (m : RpcMessage) : RpcResponse :=
  match handleMessage env m with
  | .ok r => .result r
  | .error e => .errorObj e

/-- The closed set of message types the gateway accepts. -/
def acceptedTypes : List String :=
  ["CHECK_SESSION", "GET_WORKSPACES", "GET_PROJECTS", "GET_USERS", "GET_TAGS",
   "CREATE_TASK", "UPLOAD_ATTACHMENT", "UPLOAD_ATTACHMENT_BASE64", "GET_TASK_URL",
   "SEARCH_TASKS", "ADD_COMMENT", "GET_PROJECT_CUSTOM_FIELDS", "GET_TASK",
   "SHOW_NOTIFICATION", "SAVE_PREFERENCES", "GET_PREFERENCES"]

/-- A concrete gateway environment for the C9 witness. -/
def gwEnvEx : GatewayEnv :=
  { checkSession := .ok "session", getWorkspaces := .ok "ws",
    getProjects := fun _ => .ok "projects", getUsers := fun _ => .ok "users",
    getTags := fun _ => .ok "tags", createTask := fun _ => .ok "task",
    downloadGmail := fun _ => .ok [1, 2], uploadAttachment := fun _ _ _ => .ok "att",
    searchTasks := fun _ _ => .ok "tasks", addComment := fun _ _ _ => .ok "story",
    getProjectCustomFields := fun _ => .ok "cf", getTask := fun _ => .ok "task",
    savePrefs := fun _ => .ok (), getPrefs := .ok "prefs" }

end GmailAsana

namespace GmailAsana

/-! ## Theorems -/

theorem charToSextet_sextetToChar : ∀ n < 64, charToSextet (sextetToChar n) = n := by decide

theorem sextetToChar_ne_pad : ∀ n < 64, sextetToChar n ≠ '=' := by decide

/-- Claim C10 — round-trip of the attachment relay encoding: decoding (as the
`UPLOAD_ATTACHMENT_BASE64` gateway handler does with `atob`) the base64
payload produced by `blobToBase64` reconstructs exactly the original byte
sequence, so the uploaded blob has the same bytes as the one fetched in
the page context. -/
theorem b64_relay_roundtrip : ∀ (bs : List Nat), (∀ b ∈ bs, b < 256) →
    b64DecodeChars (b64EncodeBytes bs) = bs
  | [], _ => by simp [b64EncodeBytes, b64DecodeChars]
  | [b0], h => by
    have hb0 : b0 < 256 := h b0 (by simp)
    simp only [b64EncodeBytes, b64DecodeChars, if_true]
    rw [charToSextet_sextetToChar (b0 / 4) (by omega),
        charToSextet_sextetToChar (b0 % 4 * 16) (by omega)]
    simp only [List.cons.injEq, and_true]
    omega
  | [b0, b1], h => by
    have hb0 : b0 < 256 := h b0 (by simp)
    have hb1 : b1 < 256 := h b1 (by simp)
    simp only [b64EncodeBytes, b64DecodeChars]
    rw [if_neg (sextetToChar_ne_pad (b1 % 16 * 4) (by omega)), if_true]
    rw [charToSextet_sextetToChar (b0 / 4) (by omega),
        charToSextet_sextetToChar (b0 % 4 * 16 + b1 / 16) (by omega),
        charToSextet_sextetToChar (b1 % 16 * 4) (by omega)]
    simp only [List.cons.injEq, and_true]
    omega
  | b0 :: b1 :: b2 :: rest, h => by
    have hb0 : b0 < 256 := h b0 (by simp)
    have hb1 : b1 < 256 := h b1 (by simp)
    have hb2 : b2 < 256 := h b2 (by simp)
    have ih := b64_relay_roundtrip rest (fun b hb => h b (by simp [hb]))
    simp only [b64EncodeBytes, b64DecodeChars]
    rw [if_neg (sextetToChar_ne_pad (b1 % 16 * 4 + b2 / 64) (by omega)),
        if_neg (sextetToChar_ne_pad (b2 % 64) (by omega))]
    rw [charToSextet_sextetToChar (b0 / 4) (by omega),
        charToSextet_sextetToChar (b0 % 4 * 16 + b1 / 16) (by omega),
        charToSextet_sextetToChar (b1 % 16 * 4 + b2 / 64) (by omega),
        charToSextet_sextetToChar (b2 % 64) (by omega)]
    rw [ih]
    simp only [List.cons.injEq, and_true]
    refine ⟨by omega, by omega, by omega⟩

/-- Witness for `b64_relay_roundtrip` at the bytes of the ASCII string
"Gmail" (length 5, so the encoding ends in one `=` pad). -/
theorem b64_relay_roundtrip_witness :
    (∀ b ∈ [71, 109, 97, 105, 108], b < 256) ∧
    b64DecodeChars (b64EncodeBytes [71, 109, 97, 105, 108]) = [71, 109, 97, 105, 108] :=
  ⟨by decide, b64_relay_roundtrip [71, 109, 97, 105, 108] (by decide)⟩

/-! ### Generic fold invariant -/

theorem foldlInvariant {α β : Type _} (P : β → Prop) (f : β → α → β)
    (hstep : ∀ b a, P b → P (f b a)) :
    ∀ (l : List α) (b : β), P b → P (l.foldl f b)
  | [], _, hb => hb
  | a :: t, b, hb => foldlInvariant P f hstep t (f b a) (hstep b a hb)

/-! ### Thread-scan invariants (C2, C3) -/

theorem stampAtts_mem (g : Nat) :
    ∀ (l : List RawAtt) (j : Nat) (x : Attachment), x ∈ stampAtts g l j →
      ∃ a ∈ l, x.name = a.name ∧ x.url = some a.url ∧ x.isCollapsedPlaceholder = false
  | [], _, x, hx => by simp [stampAtts] at hx
  | a :: t, j, x, hx => by
    rw [stampAtts] at hx
    rcases List.mem_cons.mp hx with rfl | hx
    · exact ⟨a, List.mem_cons_self a t, rfl, rfl, rfl⟩
    · obtain ⟨b, hb, h⟩ := stampAtts_mem g t (j + 1) x hx
      exact ⟨b, List.mem_cons_of_mem a hb, h⟩

theorem stampAtts_pairwise (g : Nat) :
    ∀ (l : List RawAtt), l.Pairwise (fun x y => x.name ≠ y.name) →
      ∀ j, (stampAtts g l j).Pairwise (fun x y => x.name ≠ y.name)
  | [], _, _ => by simp [stampAtts]
  | a :: t, h, j => by
    rw [stampAtts, List.pairwise_cons]
    rw [List.pairwise_cons] at h
    refine ⟨?_, stampAtts_pairwise g t h.2 (j + 1)⟩
    intro x hx
    obtain ⟨b, hb, hname, _, _⟩ := stampAtts_mem g t (j + 1) x hx
    show a.name ≠ x.name
    rw [hname]
    exact h.1 b hb

theorem buildExpandedMsgs_mem (dom : ThreadDom) :
    ∀ (groups : List (Option Nat × List RawAtt)) (gIdx : Nat) (m : ThreadMsg),
      m ∈ buildExpandedMsgs dom groups gIdx →
      m.expanded = true ∧ ∃ g ∈ groups, m.attachments = stampAtts m.index g.2 0
  | [], _, m, hm => by simp [buildExpandedMsgs] at hm
  | g0 :: rest, gIdx, m, hm => by
    rw [buildExpandedMsgs] at hm
    split at hm
    · obtain ⟨hexp, g, hg, hatt⟩ := buildExpandedMsgs_mem dom rest gIdx m hm
      exact ⟨hexp, g, List.mem_cons_of_mem _ hg, hatt⟩
    · rcases List.mem_cons.mp hm with rfl | hm
      · exact ⟨rfl, g0, List.mem_cons_self _ _, rfl⟩
      · obtain ⟨hexp, g, hg, hatt⟩ := buildExpandedMsgs_mem dom rest (gIdx + 1) m hm
        exact ⟨hexp, g, List.mem_cons_of_mem _ hg, hatt⟩

theorem collapsedStep_shape (dom : ThreadDom) (st : List ThreadMsg × Nat) (row : CollapsedRow)
    (h : ∀ m ∈ st.1, (m.expanded = false → collapsedShape dom m) ∧
          ∀ a ∈ m.attachments, a.isCollapsedPlaceholder = true → a.url = none) :
    ∀ m ∈ (collapsedStep dom st row).1, (m.expanded = false → collapsedShape dom m) ∧
          ∀ a ∈ m.attachments, a.isCollapsedPlaceholder = true → a.url = none := by
  intro m hm
  simp only [collapsedStep] at hm
  split at hm
  · split at hm
    · exact h m hm
    · simp only [] at hm
      rcases List.mem_append.mp hm with hm | hm
      · exact h m hm
      · simp only [List.mem_singleton] at hm
        subst hm
        refine ⟨fun _ => ⟨_, rfl, rfl⟩, ?_⟩
        intro a ha
        simp only [List.mem_singleton] at ha
        subst ha
        intro _
        rfl
  · exact h m hm

theorem getAllThreadAttachments_inv (dom : ThreadDom) :
    ∀ m ∈ getAllThreadAttachments dom,
      (m.expanded = false → collapsedShape dom m) ∧
      ∀ a ∈ m.attachments, a.isCollapsedPlaceholder = true → a.url = none := by
  have hbase : ∀ m ∈ buildExpandedMsgs dom (dom.attContainers.foldl threadGroupStep []) 0,
      (m.expanded = false → collapsedShape dom m) ∧
      ∀ a ∈ m.attachments, a.isCollapsedPlaceholder = true → a.url = none := by
    intro m hm
    obtain ⟨hexp, g, _, hatt⟩ := buildExpandedMsgs_mem dom _ 0 m hm
    constructor
    · intro hfalse
      rw [hexp] at hfalse
      cases hfalse
    · intro a ha hp
      rw [hatt] at ha
      obtain ⟨b, _, _, _, hpl⟩ := stampAtts_mem m.index g.2 0 a ha
      rw [hpl] at hp
      cases hp
  simp only [getAllThreadAttachments]
  exact foldlInvariant
    (fun st => ∀ m ∈ st.1, (m.expanded = false → collapsedShape dom m) ∧
      ∀ a ∈ m.attachments, a.isCollapsedPlaceholder = true → a.url = none)
    (collapsedStep dom) (collapsedStep_shape dom) dom.collapsedRows
    (buildExpandedMsgs dom (dom.attContainers.foldl threadGroupStep []) 0,
     (buildExpandedMsgs dom (dom.attContainers.foldl threadGroupStep []) 0).length) hbase

/-- Claim C2 — for every Attachment record produced by the thread scan
(`EmailExtractor.getAllThreadAttachments`), if its placeholder flag
`isCollapsedPlaceholder` is true then its download reference `url` is
null. -/
theorem c2_placeholder_url_none (dom : ThreadDom) (m : ThreadMsg) (a : Attachment)
    (hm : m ∈ getAllThreadAttachments dom) (ha : a ∈ m.attachments)
    (hp : a.isCollapsedPlaceholder = true) : a.url = none :=
  (getAllThreadAttachments_inv dom m hm).2 a ha hp

/-- Witness for `c2_placeholder_url_none` on a concrete collapsed-row DOM. -/
theorem c2_placeholder_url_none_witness :
    collapsedMsgEx ∈ getAllThreadAttachments threadDomCollapsedEx ∧
    placeholderAtt threadDomCollapsedEx 0 "3" ∈ collapsedMsgEx.attachments ∧
    (placeholderAtt threadDomCollapsedEx 0 "3").isCollapsedPlaceholder = true ∧
    (placeholderAtt threadDomCollapsedEx 0 "3").url = none :=
  ⟨by decide, by decide, by decide,
   c2_placeholder_url_none threadDomCollapsedEx collapsedMsgEx
     (placeholderAtt threadDomCollapsedEx 0 "3") (by decide) (by decide) (by decide)⟩

/-- Claim C3 — every message record produced by the thread scan with
`expanded = false` contains exactly one placeholder attachment, carrying
the count hint and no real download reference. -/
theorem c3_collapsed_single_placeholder (dom : ThreadDom) (m : ThreadMsg)
    (hm : m ∈ getAllThreadAttachments dom) (hexp : m.expanded = false) :
    collapsedShape dom m :=
  (getAllThreadAttachments_inv dom m hm).1 hexp

/-- Witness for `c3_collapsed_single_placeholder` on a concrete
collapsed-row DOM. -/
theorem c3_collapsed_single_placeholder_witness :
    collapsedMsgEx ∈ getAllThreadAttachments threadDomCollapsedEx ∧
    collapsedMsgEx.expanded = false ∧
    collapsedShape threadDomCollapsedEx collapsedMsgEx :=
  ⟨by decide, by decide,
   c3_collapsed_single_placeholder threadDomCollapsedEx collapsedMsgEx (by decide) (by decide)⟩

/-! ### Attachment deduplication (C7) -/

theorem attFromMessageStep_pairwise (acc : List Attachment) (c : AttContainer)
    (h : acc.Pairwise (fun x y => x.name ≠ y.name)) :
    (attFromMessageStep acc c).Pairwise (fun x y => x.name ≠ y.name) := by
  simp only [attFromMessageStep]
  split
  · exact h
  · rename_i hany
    refine List.pairwise_append.mpr ⟨h, by simp, ?_⟩
    intro a ha b hb
    simp only [List.mem_singleton] at hb
    subst hb
    intro hc
    exact hany (List.any_eq_true.mpr ⟨a, ha, by simp [hc]⟩)

theorem getAttachmentsFromMessage_pairwise (cs : List AttContainer) :
    (getAttachmentsFromMessage cs).Pairwise (fun x y => x.name ≠ y.name) :=
  foldlInvariant (fun l => l.Pairwise (fun x y => x.name ≠ y.name)) attFromMessageStep
    attFromMessageStep_pairwise cs [] (by simp)

theorem attFold_dedupSpec : ∀ (cs : List AttContainer) (acc : List Attachment),
    (cs.foldl attFromMessageStep acc).map (fun a => (a.name, a.url, a.size)) =
      acc.map (fun a => (a.name, a.url, a.size)) ++
        dedupByNameSpec (acc.map (fun a => a.name)) cs
  | [], acc => by simp [dedupByNameSpec]
  | c :: t, acc => by
    rw [List.foldl_cons]
    by_cases hb : acc.any (fun a => a.name == attContainerName c) = true
    · have hseen : (acc.map (fun a => a.name)).any (fun m => m == attContainerName c) = true := by
        simpa [List.any_map, Function.comp] using hb
      rw [show attFromMessageStep acc c = acc from by simp [attFromMessageStep, hb]]
      rw [attFold_dedupSpec t acc]
      simp [dedupByNameSpec, hseen]
    · have hseen : ¬ (acc.map (fun a => a.name)).any (fun m => m == attContainerName c) = true := by
        simpa [List.any_map, Function.comp] using hb
      rw [show attFromMessageStep acc c =
          acc ++ [{ name := attContainerName c, url := attContainerUrl c, size := c.sizeText,
                    id := "attachment-" ++ toString acc.length }] from by
        simp [attFromMessageStep, hb]]
      rw [attFold_dedupSpec t (acc ++ _)]
      simp [dedupByNameSpec, hseen]

/-- Refinement for the per-message extractor: projected to
`(name, url, size)`, its output is exactly the spec-side first-seen
deduplication of the container list. -/
theorem getAttachmentsFromMessage_spec (cs : List AttContainer) :
    (getAttachmentsFromMessage cs).map (fun a => (a.name, a.url, a.size)) =
      dedupByNameSpec [] cs := by
  have h := attFold_dedupSpec cs []
  simpa [getAttachmentsFromMessage] using h

theorem mainPass_names_aux : ∀ (cs : List AttContainer) (acc : List Attachment),
    (cs.foldl mainPassStep acc).map (fun a => a.name) =
      acc.map (fun a => a.name) ++ cs.map attContainerName
  | [], acc => by simp
  | c :: t, acc => by
    rw [List.foldl_cons, mainPass_names_aux t]
    simp [mainPassStep]

theorem inlinePass_suffix : ∀ (cs : List InlineAtt) (init : List Attachment),
    ∃ suffix, cs.foldl inlinePassStep init = init ++ suffix ∧
      suffix.Pairwise (fun x y => x.name ≠ y.name) ∧
      ∀ a ∈ suffix, ∀ b ∈ init, a.name ≠ b.name
  | [], init => ⟨[], by simp, by simp, by simp⟩
  | c :: t, init => by
    rw [List.foldl_cons]
    by_cases h1 : c.nameText = ""
    · obtain ⟨s, hs, hp, hf⟩ := inlinePass_suffix t init
      rw [show inlinePassStep init c = init from by simp [inlinePassStep, h1]]
      exact ⟨s, hs, hp, hf⟩
    · by_cases h2 : init.any (fun a => a.name == c.nameText) = true
      · obtain ⟨s, hs, hp, hf⟩ := inlinePass_suffix t init
        rw [show inlinePassStep init c = init from by simp [inlinePassStep, h1, h2]]
        exact ⟨s, hs, hp, hf⟩
      · rw [show inlinePassStep init c =
            init ++ [{ name := c.nameText, url := c.downloadHref, size := "",
                       id := "attachment-" ++ toString init.length }] from by
          simp [inlinePassStep, h1, h2]]
        obtain ⟨s, hs, hp, hf⟩ := inlinePass_suffix t (init ++
          [{ name := c.nameText, url := c.downloadHref, size := "",
             id := "attachment-" ++ toString init.length }])
        refine ⟨{ name := c.nameText, url := c.downloadHref, size := "",
                  id := "attachment-" ++ toString init.length } :: s, ?_, ?_, ?_⟩
        · rw [hs, List.append_assoc]
          simp
        · rw [List.pairwise_cons]
          refine ⟨?_, hp⟩
          intro b hb
          have hbf := hf b hb _ (List.mem_append.mpr (Or.inr (List.mem_singleton_self _)))
          exact fun hc => hbf hc.symm
        · intro a ha b hb
          rcases List.mem_cons.mp ha with rfl | ha
          · intro hc
            exact h2 (List.any_eq_true.mpr ⟨b, hb, by simp [hc.symm]⟩)
          · exact hf a ha b (List.mem_append.mpr (Or.inl hb))

theorem threadGroupStep_pairwise (groups : List (Option Nat × List RawAtt))
    (c : ThreadAttContainer)
    (h : ∀ g ∈ groups, g.2.Pairwise (fun x y => x.name ≠ y.name)) :
    ∀ g ∈ threadGroupStep groups c, g.2.Pairwise (fun x y => x.name ≠ y.name) := by
  have h1 : ∀ g ∈ (if groups.any (fun g => g.1 == c.msgKey) then groups
      else groups ++ [(c.msgKey, [])]), g.2.Pairwise (fun x y => x.name ≠ y.name) := by
    split
    · exact h
    · intro g hg
      rcases List.mem_append.mp hg with hg | hg
      · exact h g hg
      · simp only [List.mem_singleton] at hg
        subst hg
        simp
  intro g hg
  simp only [threadGroupStep] at hg
  split at hg
  · exact h1 g hg
  · obtain ⟨g0, hg0, rfl⟩ := List.mem_map.mp hg
    by_cases hk : (g0.1 == c.msgKey) = true
    · by_cases hd : g0.2.any (fun a => a.name == c.nameRes) = true
      · simp only [hk, hd, if_true]
        exact h1 g0 hg0
      · simp only [hk, hd, if_true, if_false]
        refine List.pairwise_append.mpr ⟨h1 g0 hg0, by simp, ?_⟩
        intro a ha b hb
        simp only [List.mem_singleton] at hb
        subst hb
        intro hc
        exact hd (List.any_eq_true.mpr ⟨a, ha, by simp [hc]⟩)
    · simp only [hk, if_false]
      exact h1 g0 hg0

theorem collapsedStep_pairwise (dom : ThreadDom) (st : List ThreadMsg × Nat)
    (row : CollapsedRow)
    (h : ∀ m ∈ st.1, m.attachments.Pairwise (fun x y => x.name ≠ y.name)) :
    ∀ m ∈ (collapsedStep dom st row).1,
      m.attachments.Pairwise (fun x y => x.name ≠ y.name) := by
  intro m hm
  simp only [collapsedStep] at hm
  split at hm
  · split at hm
    · exact h m hm
    · simp only [] at hm
      rcases List.mem_append.mp hm with hm | hm
      · exact h m hm
      · simp only [List.mem_singleton] at hm
        subst hm
        simp
  · exact h m hm

theorem getAllThreadAttachments_pairwise (dom : ThreadDom) :
    ∀ m ∈ getAllThreadAttachments dom,
      m.attachments.Pairwise (fun x y => x.name ≠ y.name) := by
  have hgroups : ∀ g ∈ dom.attContainers.foldl threadGroupStep [],
      g.2.Pairwise (fun x y => x.name ≠ y.name) :=
    foldlInvariant (fun gs => ∀ g ∈ gs, g.2.Pairwise (fun x y => x.name ≠ y.name))
      threadGroupStep threadGroupStep_pairwise dom.attContainers [] (by simp)
  have hbase : ∀ m ∈ buildExpandedMsgs dom (dom.attContainers.foldl threadGroupStep []) 0,
      m.attachments.Pairwise (fun x y => x.name ≠ y.name) := by
    intro m hm
    obtain ⟨_, g, hg, hatt⟩ := buildExpandedMsgs_mem dom _ 0 m hm
    rw [hatt]
    exact stampAtts_pairwise m.index g.2 (hgroups g hg) 0
  simp only [getAllThreadAttachments]
  exact foldlInvariant
    (fun st => ∀ m ∈ st.1, m.attachments.Pairwise (fun x y => x.name ≠ y.name))
    (collapsedStep dom) (collapsedStep_pairwise dom) dom.collapsedRows
    (buildExpandedMsgs dom (dom.attContainers.foldl threadGroupStep []) 0,
     (buildExpandedMsgs dom (dom.attContainers.foldl threadGroupStep []) 0).length) hbase

/-- Claim C7 counterexample — the whole-view extraction entry point
(`EmailExtractor.getAttachments`) does not deduplicate its primary pass:
a view whose `.aZo, .aQH` query yields two attachment cards with the same
file name produces two entries with that name. -/
theorem c7_counterexample :
    (getAttachments wholeViewDupEx).map (fun a => a.name) =
      ["facture.pdf", "facture.pdf"] ∧
    ¬ (getAttachments wholeViewDupEx).Pairwise (fun x y => x.name ≠ y.name) := by
  constructor
  · decide
  · decide

/-- Claim C7 (amended) — first-seen deduplication by exact name holds within
one message for the per-message extractor and for every message of the
thread scan; in the whole-view extractor only the inline pass
deduplicates (against every name already collected), while its primary
pass appends one entry per container unconditionally; and the thread scan
applies no deduplication across different messages. -/
theorem c7_attachment_dedup_amended :
    (∀ cs : List AttContainer,
        (getAttachmentsFromMessage cs).map (fun a => (a.name, a.url, a.size)) =
          dedupByNameSpec [] cs ∧
        (getAttachmentsFromMessage cs).Pairwise (fun x y => x.name ≠ y.name)) ∧
    (∀ (dom : ThreadDom), ∀ m ∈ getAllThreadAttachments dom,
        m.attachments.Pairwise (fun x y => x.name ≠ y.name)) ∧
    (∀ cs : List AttContainer,
        (getAttachmentsMainPass cs).map (fun a => a.name) = cs.map attContainerName) ∧
    (∀ dom : WholeViewDom, ∃ suffix,
        getAttachments dom = getAttachmentsMainPass dom.mainContainers ++ suffix ∧
        suffix.Pairwise (fun x y => x.name ≠ y.name) ∧
        ∀ a ∈ suffix, ∀ b ∈ getAttachmentsMainPass dom.mainContainers, a.name ≠ b.name) ∧
    (getAllThreadAttachments threadDomCrossEx).map
        (fun m => m.attachments.map (fun a => a.name)) = [["a.pdf"], ["a.pdf"]] := by
  refine ⟨fun cs => ⟨getAttachmentsFromMessage_spec cs, getAttachmentsFromMessage_pairwise cs⟩,
          getAllThreadAttachments_pairwise, ?_, ?_, by decide⟩
  · intro cs
    have h := mainPass_names_aux cs []
    simpa [getAttachmentsMainPass] using h
  · intro dom
    exact inlinePass_suffix dom.inlineContainers (getAttachmentsMainPass dom.mainContainers)

/-- Witness for `c7_attachment_dedup_amended`: its thread-scan conjunct
applied to the concrete two-message DOM. -/
theorem c7_attachment_dedup_amended_witness :
    crossMsg0 ∈ getAllThreadAttachments threadDomCrossEx ∧
    crossMsg0.attachments.Pairwise (fun x y => x.name ≠ y.name) :=
  ⟨by decide,
   c7_attachment_dedup_amended.2.1 threadDomCrossEx crossMsg0 (by decide)⟩

/-! ### Injector idempotence (C4) -/

theorem any_beq_iff_mem {l : List Nat} {c : Nat} : (l.any fun m => m == c) = true ↔ c ∈ l := by
  rw [List.any_eq_true]
  constructor
  · rintro ⟨x, hx, hbeq⟩
    rw [beq_iff_eq] at hbeq
    rwa [← hbeq]
  · intro h
    exact ⟨c, h, by simp⟩

theorem ensureStep_cases (k : BtnKind) (e : Nat → Bool) (st : InjState) (c : Nat) :
    ensureStep k e st c = st ∨
    (c ∉ st.marked ∧ btnCount st k c = 0 ∧ e c = true ∧
      ensureStep k e st c = { marked := st.marked ++ [c], btns := st.btns ++ [(k, c)] }) := by
  by_cases h1 : (st.marked.any fun m => m == c) = true
  · left
    simp [ensureStep, h1]
  · by_cases h2 : 0 < btnCount st k c
    · left
      simp [ensureStep, h1, h2]
    · by_cases h3 : e c = true
      · right
        refine ⟨fun hc => h1 (any_beq_iff_mem.mpr hc), by omega, h3, ?_⟩
        simp [ensureStep, h1, h2, h3]
      · left
        simp [ensureStep, h1, h2, h3]

theorem trigCount_append (st : InjState) (k : BtnKind) (c x : Nat) :
    trigCount { marked := st.marked ++ [c], btns := st.btns ++ [(k, c)] } x =
      trigCount st x + (if c = x then 1 else 0) := by
  by_cases h : c = x <;> simp [trigCount, List.filter_append, h]

theorem btnCount_le_trigCount (k : BtnKind) (c : Nat) : ∀ (l : List (BtnKind × Nat)),
    (l.filter (fun b => b == (k, c))).length ≤ (l.filter (fun b => b.2 == c)).length
  | [] => le_refl 0
  | b :: t => by
    rw [List.filter_cons, List.filter_cons]
    by_cases hb : b = (k, c)
    · subst hb
      simp [btnCount_le_trigCount k c t]
    · have h1 : (b == (k, c)) = false := by simpa using hb
      rw [h1]
      by_cases hb2 : (b.2 == c) = true
      · rw [hb2]
        simpa using Nat.le_succ_of_le (btnCount_le_trigCount k c t)
      · rw [Bool.eq_false_iff.mpr hb2]
        simpa using btnCount_le_trigCount k c t

theorem ensureStep_trig_mono (k : BtnKind) (e : Nat → Bool) (st : InjState) (c x : Nat) :
    trigCount st x ≤ trigCount (ensureStep k e st c) x := by
  rcases ensureStep_cases k e st c with h | ⟨_, _, _, h⟩ <;> rw [h]
  rw [trigCount_append]
  omega

theorem foldEnsure_trig_mono (k : BtnKind) (e : Nat → Bool) :
    ∀ (l : List Nat) (st : InjState) (x : Nat),
      trigCount st x ≤ trigCount (l.foldl (ensureStep k e) st) x
  | [], _, _ => le_refl _
  | a :: t, st, x =>
    le_trans (ensureStep_trig_mono k e st a x) (foldEnsure_trig_mono k e t _ x)

theorem ensureStep_marked_mono (k : BtnKind) (e : Nat → Bool) (st : InjState) (c x : Nat)
    (hx : x ∈ st.marked) : x ∈ (ensureStep k e st c).marked := by
  rcases ensureStep_cases k e st c with h | ⟨_, _, _, h⟩ <;> rw [h]
  · exact hx
  · exact List.mem_append.mpr (Or.inl hx)

theorem ensureStep_btn_mono (k : BtnKind) (e : Nat → Bool) (st : InjState) (c : Nat)
    (k' : BtnKind) (x : Nat) :
    btnCount st k' x ≤ btnCount (ensureStep k e st c) k' x := by
  rcases ensureStep_cases k e st c with h | ⟨_, _, _, h⟩ <;> rw [h]
  simp only [btnCount, List.filter_append, List.length_append]
  omega

theorem ensureStep_settled_mono (k : BtnKind) (e : Nat → Bool) (k' : BtnKind) (e' : Nat → Bool)
    (st : InjState) (a c : Nat) (h : settled k e st c) :
    settled k e (ensureStep k' e' st a) c := by
  rcases h with h | h | h
  · exact Or.inl (ensureStep_marked_mono k' e' st a c h)
  · exact Or.inr (Or.inl (lt_of_lt_of_le h (ensureStep_btn_mono k' e' st a k c)))
  · exact Or.inr (Or.inr h)

theorem foldEnsure_settled_mono (k : BtnKind) (e : Nat → Bool) (k' : BtnKind) (e' : Nat → Bool) :
    ∀ (l : List Nat) (st : InjState) (c : Nat),
      settled k e st c → settled k e (l.foldl (ensureStep k' e') st) c
  | [], _, _, h => h
  | a :: t, st, c, h =>
    foldEnsure_settled_mono k e k' e' t _ c (ensureStep_settled_mono k e k' e' st a c h)

theorem ensureStep_settles (k : BtnKind) (e : Nat → Bool) (st : InjState) (c : Nat) :
    settled k e (ensureStep k e st c) c := by
  by_cases h1 : (st.marked.any fun m => m == c) = true
  · rw [show ensureStep k e st c = st from by simp [ensureStep, h1]]
    exact Or.inl (any_beq_iff_mem.mp h1)
  · by_cases h2 : 0 < btnCount st k c
    · rw [show ensureStep k e st c = st from by simp [ensureStep, h1, h2]]
      exact Or.inr (Or.inl h2)
    · by_cases h3 : e c = true
      · rw [show ensureStep k e st c =
            { marked := st.marked ++ [c], btns := st.btns ++ [(k, c)] } from by
          simp [ensureStep, h1, h2, h3]]
        exact Or.inl (List.mem_append.mpr (Or.inr (List.mem_singleton_self c)))
      · rw [show ensureStep k e st c = st from by simp [ensureStep, h1, h2, h3]]
        exact Or.inr (Or.inr (Bool.eq_false_iff.mpr h3))

theorem foldEnsure_settles (k : BtnKind) (e : Nat → Bool) :
    ∀ (l : List Nat) (st : InjState) (c : Nat), c ∈ l →
      settled k e (l.foldl (ensureStep k e) st) c
  | a :: t, st, c, hc => by
    rw [List.foldl_cons]
    rcases List.mem_cons.mp hc with rfl | hc
    · exact foldEnsure_settled_mono k e k e t _ c (ensureStep_settles k e st c)
    · exact foldEnsure_settles k e t _ c hc

theorem ensureStep_of_settled (k : BtnKind) (e : Nat → Bool) (st : InjState) (c : Nat)
    (h : settled k e st c) : ensureStep k e st c = st := by
  rcases ensureStep_cases k e st c with hc | ⟨hm, hcnt, helig, _⟩
  · exact hc
  · exfalso
    rcases h with h | h | h
    · exact hm h
    · omega
    · rw [helig] at h
      cases h

theorem foldEnsure_of_settled (k : BtnKind) (e : Nat → Bool) :
    ∀ (l : List Nat) (st : InjState), (∀ c ∈ l, settled k e st c) →
      l.foldl (ensureStep k e) st = st
  | [], _, _ => rfl
  | a :: t, st, h => by
    rw [List.foldl_cons, ensureStep_of_settled k e st a (h a (List.mem_cons_self a t)),
        foldEnsure_of_settled k e t st (fun c hc => h c (List.mem_cons_of_mem a hc))]

theorem injectButtons_idem (dom : InjDom) (st : InjState) :
    injectButtons dom (injectButtons dom st) = injectButtons dom st := by
  simp only [injectButtons, injectMessageButtons, injectToolbarButtons]
  have e2 : Nat → Bool := fun c => dom.gsHasHeader c && dom.gsHasActions c
  have h1 : ∀ c ∈ dom.toolbars,
      settled .toolbarBtn dom.toolbarHasInsertPoint
        ((dom.senderResolved.filterMap id).foldl (ensureStep .miniBtn dom.senderHasRow)
          (dom.midMessages.foldl (ensureStep .miniBtn dom.midHasActions)
            (dom.gsMessages.foldl
              (ensureStep .miniBtn (fun c => dom.gsHasHeader c && dom.gsHasActions c))
              (dom.toolbars.foldl
                (ensureStep .toolbarBtn dom.toolbarHasInsertPoint) st)))) c :=
    fun c hc =>
      foldEnsure_settled_mono _ _ _ _ _ _ c
        (foldEnsure_settled_mono _ _ _ _ _ _ c
          (foldEnsure_settled_mono _ _ _ _ _ _ c
            (foldEnsure_settles _ _ dom.toolbars st c hc)))
  have h2 : ∀ c ∈ dom.gsMessages,
      settled .miniBtn (fun c => dom.gsHasHeader c && dom.gsHasActions c)
        ((dom.senderResolved.filterMap id).foldl (ensureStep .miniBtn dom.senderHasRow)
          (dom.midMessages.foldl (ensureStep .miniBtn dom.midHasActions)
            (dom.gsMessages.foldl
              (ensureStep .miniBtn (fun c => dom.gsHasHeader c && dom.gsHasActions c))
              (dom.toolbars.foldl
                (ensureStep .toolbarBtn dom.toolbarHasInsertPoint) st)))) c :=
    fun c hc =>
      foldEnsure_settled_mono _ _ _ _ _ _ c
        (foldEnsure_settled_mono _ _ _ _ _ _ c
          (foldEnsure_settles _ _ dom.gsMessages _ c hc))
  have h3 : ∀ c ∈ dom.midMessages,
      settled .miniBtn dom.midHasActions
        ((dom.senderResolved.filterMap id).foldl (ensureStep .miniBtn dom.senderHasRow)
          (dom.midMessages.foldl (ensureStep .miniBtn dom.midHasActions)
            (dom.gsMessages.foldl
              (ensureStep .miniBtn (fun c => dom.gsHasHeader c && dom.gsHasActions c))
              (dom.toolbars.foldl
                (ensureStep .toolbarBtn dom.toolbarHasInsertPoint) st)))) c :=
    fun c hc =>
      foldEnsure_settled_mono _ _ _ _ _ _ c
        (foldEnsure_settles _ _ dom.midMessages _ c hc)
  have h4 : ∀ c ∈ dom.senderResolved.filterMap id,
      settled .miniBtn dom.senderHasRow
        ((dom.senderResolved.filterMap id).foldl (ensureStep .miniBtn dom.senderHasRow)
          (dom.midMessages.foldl (ensureStep .miniBtn dom.midHasActions)
            (dom.gsMessages.foldl
              (ensureStep .miniBtn (fun c => dom.gsHasHeader c && dom.gsHasActions c))
              (dom.toolbars.foldl
                (ensureStep .toolbarBtn dom.toolbarHasInsertPoint) st)))) c :=
    fun c hc => foldEnsure_settles _ _ (dom.senderResolved.filterMap id) _ c hc
  rw [foldEnsure_of_settled _ _ dom.toolbars _ h1,
      foldEnsure_of_settled _ _ dom.gsMessages _ h2,
      foldEnsure_of_settled _ _ dom.midMessages _ h3,
      foldEnsure_of_settled _ _ (dom.senderResolved.filterMap id) _ h4]

theorem ensureStep_count_inv (k : BtnKind) (e : Nat → Bool) (st : InjState) (c : Nat)
    (h : (∀ x, trigCount st x ≤ 1) ∧ ∀ x, 0 < trigCount st x → x ∈ st.marked) :
    (∀ x, trigCount (ensureStep k e st c) x ≤ 1) ∧
      ∀ x, 0 < trigCount (ensureStep k e st c) x → x ∈ (ensureStep k e st c).marked := by
  rcases ensureStep_cases k e st c with hc | ⟨hm, _, _, hc⟩
  · rw [hc]
    exact h
  · rw [hc]
    have hc0 : trigCount st c = 0 := by
      by_contra hne
      exact hm (h.2 c (by omega))
    constructor
    · intro x
      rw [trigCount_append]
      by_cases hx : c = x
      · subst hx
        simp [hc0]
      · simp only [hx, if_false]
        have := h.1 x
        omega
    · intro x hx
      rw [trigCount_append] at hx
      by_cases hx' : c = x
      · subst hx'
        exact List.mem_append.mpr (Or.inr (List.mem_singleton_self c))
      · simp only [hx', if_false] at hx
        exact List.mem_append.mpr (Or.inl (h.2 x (by omega)))

theorem injectButtons_count_inv (dom : InjDom) :
    (∀ x, trigCount (injectButtons dom emptyInjState) x ≤ 1) ∧
      ∀ x, 0 < trigCount (injectButtons dom emptyInjState) x →
        x ∈ (injectButtons dom emptyInjState).marked := by
  simp only [injectButtons, injectMessageButtons, injectToolbarButtons]
  refine foldlInvariant
    (fun st => (∀ x, trigCount st x ≤ 1) ∧ ∀ x, 0 < trigCount st x → x ∈ st.marked)
    (ensureStep .miniBtn dom.senderHasRow)
    (fun b a hb => ensureStep_count_inv _ _ b a hb) _ _ ?_
  refine foldlInvariant _ (ensureStep .miniBtn dom.midHasActions)
    (fun b a hb => ensureStep_count_inv _ _ b a hb) _ _ ?_
  refine foldlInvariant _
    (ensureStep .miniBtn (fun c => dom.gsHasHeader c && dom.gsHasActions c))
    (fun b a hb => ensureStep_count_inv _ _ b a hb) _ _ ?_
  refine foldlInvariant _ (ensureStep .toolbarBtn dom.toolbarHasInsertPoint)
    (fun b a hb => ensureStep_count_inv _ _ b a hb) _ _ ?_
  exact ⟨fun x => by simp [trigCount, emptyInjState], fun x hx => by simp [trigCount, emptyInjState] at hx⟩

theorem ensureStep_marked_new (k : BtnKind) (e : Nat → Bool) (st : InjState) (a x : Nat)
    (hx : x ∈ (ensureStep k e st a).marked) :
    x ∈ st.marked ∨ 0 < trigCount (ensureStep k e st a) x := by
  rcases ensureStep_cases k e st a with hc | ⟨_, _, _, hc⟩
  · rw [hc] at hx
    exact Or.inl hx
  · rw [hc] at hx ⊢
    rcases List.mem_append.mp hx with hx | hx
    · exact Or.inl hx
    · simp only [List.mem_singleton] at hx
      subst hx
      right
      rw [trigCount_append]
      simp

theorem foldEnsure_marked_new (k : BtnKind) (e : Nat → Bool) :
    ∀ (l : List Nat) (st : InjState) (x : Nat),
      x ∈ (l.foldl (ensureStep k e) st).marked →
      x ∈ st.marked ∨ 0 < trigCount (l.foldl (ensureStep k e) st) x
  | [], _, _, hx => Or.inl hx
  | a :: t, st, x, hx => by
    rw [List.foldl_cons] at hx ⊢
    rcases foldEnsure_marked_new k e t (ensureStep k e st a) x hx with h | h
    · rcases ensureStep_marked_new k e st a x h with h' | h'
      · exact Or.inl h'
      · exact Or.inr (lt_of_lt_of_le h' (foldEnsure_trig_mono k e t _ x))
    · exact Or.inr h

theorem injectButtons_marked_trig (dom : InjDom) (c : Nat)
    (hc : c ∈ (injectButtons dom emptyInjState).marked) :
    0 < trigCount (injectButtons dom emptyInjState) c := by
  simp only [injectButtons, injectMessageButtons, injectToolbarButtons] at hc ⊢
  rcases foldEnsure_marked_new _ _ _ _ c hc with h | h
  · rcases foldEnsure_marked_new _ _ _ _ c h with h | h
    · rcases foldEnsure_marked_new _ _ _ _ c h with h | h
      · rcases foldEnsure_marked_new _ _ _ _ c h with h | h
        · simp [emptyInjState] at h
        · exact lt_of_lt_of_le h (le_trans (foldEnsure_trig_mono _ _ _ _ c)
            (le_trans (foldEnsure_trig_mono _ _ _ _ c) (foldEnsure_trig_mono _ _ _ _ c)))
      · exact lt_of_lt_of_le h (le_trans (foldEnsure_trig_mono _ _ _ _ c)
          (foldEnsure_trig_mono _ _ _ _ c))
    · exact lt_of_lt_of_le h (foldEnsure_trig_mono _ _ _ _ c)
  · exact h

theorem injectButtons_settled_final (dom : InjDom) (k : BtnKind) (e : Nat → Bool) (c : Nat)
    (h : settled k e (injectButtons dom emptyInjState) c) (helig : e c = true) :
    0 < trigCount (injectButtons dom emptyInjState) c := by
  rcases h with h | h | h
  · exact injectButtons_marked_trig dom c h
  · exact lt_of_lt_of_le h (btnCount_le_trigCount k c _)
  · rw [helig] at h
    cases h

theorem injectButtons_discovered_pos (dom : InjDom) (c : Nat)
    (h : discoverable dom c = true) :
    0 < trigCount (injectButtons dom emptyInjState) c := by
  simp only [discoverable, Bool.or_eq_true, Bool.and_eq_true] at h
  rcases h with ((h | h) | h) | h
  · refine injectButtons_settled_final dom .toolbarBtn dom.toolbarHasInsertPoint c ?_ h.2
    simp only [injectButtons, injectMessageButtons, injectToolbarButtons]
    exact foldEnsure_settled_mono _ _ _ _ _ _ c
      (foldEnsure_settled_mono _ _ _ _ _ _ c
        (foldEnsure_settled_mono _ _ _ _ _ _ c
          (foldEnsure_settles _ _ dom.toolbars emptyInjState c (List.elem_iff.mp h.1))))
  · refine injectButtons_settled_final dom .miniBtn
      (fun x => dom.gsHasHeader x && dom.gsHasActions x) c ?_ (by simp [h.1.2, h.2])
    simp only [injectButtons, injectMessageButtons, injectToolbarButtons]
    exact foldEnsure_settled_mono _ _ _ _ _ _ c
      (foldEnsure_settled_mono _ _ _ _ _ _ c
        (foldEnsure_settles _ _ dom.gsMessages _ c (List.elem_iff.mp h.1.1)))
  · refine injectButtons_settled_final dom .miniBtn dom.midHasActions c ?_ h.2
    simp only [injectButtons, injectMessageButtons, injectToolbarButtons]
    exact foldEnsure_settled_mono _ _ _ _ _ _ c
      (foldEnsure_settles _ _ dom.midMessages _ c (List.elem_iff.mp h.1))
  · refine injectButtons_settled_final dom .miniBtn dom.senderHasRow c ?_ h.2
    simp only [injectButtons, injectMessageButtons, injectToolbarButtons]
    exact foldEnsure_settles _ _ (dom.senderResolved.filterMap id) _ c (List.elem_iff.mp h.1)

/-- Claim C4 — running the injector twice on an unchanged DOM yields exactly
the state (hence trigger count) of running it once; starting from a clean
state every container carries at most one trigger, and every container
discovered by at least one strategy (even by several) carries exactly
one. -/
theorem c4_injector_idempotent (dom : InjDom) (st : InjState) (c : Nat) :
    injectButtons dom (injectButtons dom st) = injectButtons dom st ∧
    trigCount (injectButtons dom emptyInjState) c ≤ 1 ∧
    (discoverable dom c = true → trigCount (injectButtons dom emptyInjState) c = 1) :=
  ⟨injectButtons_idem dom st,
   (injectButtons_count_inv dom).1 c,
   fun h => le_antisymm ((injectButtons_count_inv dom).1 c)
     (injectButtons_discovered_pos dom c h)⟩

/-- Witness for `c4_injector_idempotent`: in `injDomEx` container 0 is
found by all three message strategies yet ends with exactly one trigger. -/
theorem c4_injector_idempotent_witness :
    discoverable injDomEx 0 = true ∧
    trigCount (injectButtons injDomEx emptyInjState) 0 = 1 :=
  ⟨by decide, (c4_injector_idempotent injDomEx emptyInjState 0).2.2 (by decide)⟩

/-! ### Note-body assembly (C5) -/

theorem append_ne_empty_right (s t : String) (ht : t.length ≠ 0) : s ++ t ≠ "" := by
  intro h
  have h2 := congrArg String.length h
  rw [String.length_append] at h2
  have h0 : ("" : String).length = 0 := rfl
  omega

/-- Claim C5 — the assembled create-mode note body is exactly `<body>`
followed by the sections in the fixed order sender line, date line,
back-link, HTML-escaped quoted body, then `</body>`; the link and body
sections are present (non-empty) exactly when their toggle is on and the
underlying data is non-empty (a toggled-off section is excluded even when
the data exists), and the sender and date lines — which have no toggle —
exactly when their data is non-empty. -/
theorem c5_note_body_sections (tFrom : String) (e : EmailData) (il ib : Bool) :
    createTaskHtmlNotes tFrom e il ib =
      "<body>" ++ senderSection tFrom e ++ dateSection e ++ linkSection e il ++
        bodySection e ib ++ "</body>" ∧
    (senderSection tFrom e ≠ "" ↔ e.sender ≠ "") ∧
    (dateSection e ≠ "" ↔ e.date ≠ "") ∧
    (linkSection e il ≠ "" ↔ il = true ∧ e.emailUrl ≠ "") ∧
    (bodySection e ib ≠ "" ↔ ib = true ∧ e.body ≠ "") := by
  refine ⟨rfl, ?_, ?_, ?_, ?_⟩
  · by_cases hs : e.sender ≠ ""
    · simp only [senderSection, if_pos hs]
      exact iff_of_true (append_ne_empty_right _ "\n" (by decide)) hs
    · simp only [senderSection, if_neg hs]
      exact iff_of_false (by simp) hs
  · by_cases hd : e.date ≠ ""
    · simp only [dateSection, if_pos hd]
      exact iff_of_true (append_ne_empty_right _ "\n" (by decide)) hd
    · simp only [dateSection, if_neg hd]
      exact iff_of_false (by simp) hd
  · by_cases hl : il = true ∧ e.emailUrl ≠ ""
    · simp only [linkSection, if_pos hl]
      exact iff_of_true
        (append_ne_empty_right _ "\">Ouvrir dans Gmail</a>\n" (by decide)) hl
    · simp only [linkSection, if_neg hl]
      exact iff_of_false (by simp) hl
  · by_cases hb : ib = true ∧ e.body ≠ ""
    · simp only [bodySection, if_pos hb]
      exact iff_of_true (append_ne_empty_right _ "</blockquote>" (by decide)) hb
    · simp only [bodySection, if_neg hb]
      exact iff_of_false (by simp) hb

/-! ### Workspace switching (C1) -/

theorem loadCustomFields_proj (env : WorkspaceEnv) (st : ComposerState) (pid : String) :
    (loadCustomFields env st pid).selectedTags = st.selectedTags ∧
    (loadCustomFields env st pid).selectedExistingTask = st.selectedExistingTask ∧
    (loadCustomFields env st pid).selectedProject = st.selectedProject ∧
    ((loadCustomFields env st pid).customFieldValues = st.customFieldValues ∨
      (loadCustomFields env st pid).customFieldValues = []) := by
  simp only [loadCustomFields]
  split
  · split
    · exact ⟨rfl, rfl, rfl, Or.inl rfl⟩
    · exact ⟨rfl, rfl, rfl, Or.inr rfl⟩
  · exact ⟨rfl, rfl, rfl, Or.inl rfl⟩

theorem selectProject_proj (env : WorkspaceEnv) (st : ComposerState) (p : Project) :
    (selectProject env st p).selectedTags = st.selectedTags ∧
    (selectProject env st p).selectedExistingTask = st.selectedExistingTask ∧
    (selectProject env st p).selectedProject = some p ∧
    ((selectProject env st p).customFieldValues = st.customFieldValues ∨
      (selectProject env st p).customFieldValues = []) := by
  have h := loadCustomFields_proj env
    { st with selectedProject := some p,
              preferences := saveLastProject st.preferences p.gid } p.gid
  exact ⟨h.1, h.2.1, h.2.2.1, h.2.2.2⟩

theorem applyProjectAutoSelect_spec (env : WorkspaceEnv) (st : ComposerState) (pts : String) :
    (applyProjectAutoSelect env st pts).selectedTags = st.selectedTags ∧
    (applyProjectAutoSelect env st pts).selectedExistingTask = st.selectedExistingTask ∧
    ((applyProjectAutoSelect env st pts).customFieldValues = st.customFieldValues ∨
      (applyProjectAutoSelect env st pts).customFieldValues = []) ∧
    ((applyProjectAutoSelect env st pts).selectedProject = st.selectedProject ∨
      ∃ p, p ∈ st.projects ∧ p.gid = pts ∧
        (applyProjectAutoSelect env st pts).selectedProject = some p) := by
  simp only [applyProjectAutoSelect]
  split
  · split
    · rename_i p hfind
      have h := selectProject_proj env st p
      refine ⟨h.1, h.2.1, h.2.2.2, Or.inr ⟨p, List.mem_of_find?_eq_some hfind, ?_, h.2.2.1⟩⟩
      have hpred := List.find?_some hfind
      simpa using hpred
    · exact ⟨rfl, rfl, Or.inl rfl, Or.inl rfl⟩
  · exact ⟨rfl, rfl, Or.inl rfl, Or.inl rfl⟩

/-- Claim C1 counterexample — after selecting project `P1` under `W1`, a
user-driven switch to `W2`, whose project list happens to contain a
project with the same gid, ends with that project selected (restored from
the persisted last-used id) instead of leaving the selection cleared. -/
theorem c1_counterexample :
    (onWorkspaceChange wsEnvEx (selectProject wsEnvEx {} projP1) "W2" false).selectedProject =
      some projP1W2 ∧ projP1W2.gid = projP1.gid := by
  constructor
  · decide
  · decide

/-- Claim C1 (amended) — switching workspace clears the selected project,
tag set, custom-field value map and existing-task selection; after the
new workspace's data loads the tag set, the custom-field values and the
existing-task selection remain cleared, but the selected project is
re-selected when the new project list contains a project whose gid equals
the auto-select id (the stored default-project id when defaults are being
applied, else the persisted last-used project id); otherwise it stays
cleared. -/
theorem c1_workspace_switch_amended (env : WorkspaceEnv) (st : ComposerState)
    (wid : String) (auto : Bool) :
    (onWorkspaceChange env st wid auto).selectedTags = [] ∧
    (onWorkspaceChange env st wid auto).customFieldValues = [] ∧
    (onWorkspaceChange env st wid auto).selectedExistingTask = none ∧
    ((onWorkspaceChange env st wid auto).selectedProject = none ∨
      (∃ p projects users tags,
        env.loadData wid = .ok (projects, users, tags) ∧ p ∈ projects ∧
        p.gid = (if auto = true ∧ st.preferences.defaultProject ≠ "" then
                   st.preferences.defaultProject
                 else st.preferences.lastProjectId) ∧
        (onWorkspaceChange env st wid auto).selectedProject = some p)) := by
  simp only [onWorkspaceChange]
  split
  · exact ⟨rfl, rfl, rfl, Or.inl rfl⟩
  · split
    · exact ⟨rfl, rfl, rfl, Or.inl rfl⟩
    · rename_i projects users tags heq
      have h := applyProjectAutoSelect_spec env
        { st with selectedProject := none, selectedTags := [], selectedExistingTask := none,
                  customFields := [], customFieldValues := [],
                  projects := projects, users := users, tags := tags }
        (if auto = true ∧ st.preferences.defaultProject ≠ "" then
           st.preferences.defaultProject else st.preferences.lastProjectId)
      refine ⟨h.1, ?_, h.2.1, ?_⟩
      · rcases h.2.2.1 with hv | hv <;> exact hv
      · rcases h.2.2.2 with hp | ⟨p, hmem, hgid, hp⟩
        · exact Or.inl hp
        · exact Or.inr ⟨p, projects, users, tags, heq, hmem, hgid, hp⟩

/-! ### Local validation and best-effort post-steps (C6, C8) -/

/-- Claim C6 — a create-mode submission with an empty trimmed task name or
no selected project, and a linkExisting-mode submission with no
existing-task selection, abort locally with a field-level validation
message and issue no network step at all. -/
theorem c6_local_validation (env : SubmitEnv) (st : ComposerState) (f : SubmitForm)
    (e : EmailData) :
    (f.mode ≠ "comment" → (jsTrim f.taskName = "" ∨ st.selectedProject = none) →
      (runSubmit env st f e).1 = [] ∧
      ∃ key, (runSubmit env st f e).2 = .validationError key) ∧
    (f.mode = "comment" → st.selectedExistingTask = none →
      (runSubmit env st f e).1 = [] ∧
      (runSubmit env st f e).2 = .validationError "noTasksFound") := by
  constructor
  · intro hmode hval
    simp only [runSubmit, if_neg hmode, runCreateSubmit]
    by_cases hn : jsTrim f.taskName = ""
    · rw [if_pos hn]
      exact ⟨by trivial, "errorEnterTaskName", by trivial⟩
    · rcases hval with hval | hval
      · exact absurd hval hn
      · rw [if_neg hn, hval]
        exact ⟨by trivial, "errorSelectProject", by trivial⟩
  · intro hmode hsel
    simp only [runSubmit, if_pos hmode, runCommentSubmit, hsel]
    exact ⟨by trivial, by trivial⟩

/-- Witness for `c6_local_validation`: a create-mode form with task name
`X` and no project selected. -/
theorem c6_local_validation_witness :
    formNoProj.mode ≠ "comment" ∧
    (jsTrim formNoProj.taskName = "" ∨ ComposerState.selectedProject {} = none) ∧
    (runSubmit submitEnvFailEx {} formNoProj emailDataEx).1 = [] ∧
    ∃ key, (runSubmit submitEnvFailEx {} formNoProj emailDataEx).2 = .validationError key :=
  ⟨by decide, by decide,
   (c6_local_validation submitEnvFailEx {} formNoProj emailDataEx).1 (by decide) (by decide)⟩

theorem attachmentSteps_attempted (env : SubmitEnv) (taskGid : String) :
    ∀ (l : List SelAtt), ∀ a ∈ l, a.url ≠ "" →
      SubmitStep.downloadAtt a.url ∈ attachmentSteps env taskGid l
  | b :: t, a, ha, hurl => by
    rw [attachmentSteps]
    rcases List.mem_cons.mp ha with rfl | ha
    · refine List.mem_append.mpr (Or.inl ?_)
      rcases hd : env.download a.url with _ | size <;>
        simp [uploadOneAtt, hurl, hd]
    · exact List.mem_append.mpr (Or.inr (attachmentSteps_attempted env taskGid t a ha hurl))

/-- Claim C8 — once the task (or comment) creation call succeeds, the
submission is reported as success whatever the download/upload/label
oracles answer: EML failures, per-attachment download or upload failures
and label failures never change the outcome, the final notification is
still emitted, and every selected attachment with a non-empty reference
is still attempted. -/
theorem c8_post_steps_best_effort (env : SubmitEnv) (st : ComposerState) (f : SubmitForm)
    (e : EmailData) :
    (f.mode ≠ "comment" → jsTrim f.taskName ≠ "" →
      ∀ p, st.selectedProject = some p → ∀ task, env.createResult = .ok task →
        (runSubmit env st f e).2 = .success task.gid ∧
        SubmitStep.notify (taskUrl task.gid) ∈ (runSubmit env st f e).1 ∧
        ∀ a ∈ f.selectedAttachments, a.url ≠ "" →
          SubmitStep.downloadAtt a.url ∈ (runSubmit env st f e).1) ∧
    (f.mode = "comment" → ∀ task, st.selectedExistingTask = some task →
      env.commentResult = .ok () →
        (runSubmit env st f e).2 = .success task.gid ∧
        SubmitStep.notify (taskUrl task.gid) ∈ (runSubmit env st f e).1 ∧
        ∀ a ∈ f.selectedAttachments, a.url ≠ "" →
          SubmitStep.downloadAtt a.url ∈ (runSubmit env st f e).1) := by
  constructor
  · intro hmode hname p hp task htask
    simp only [runSubmit, if_neg hmode, runCreateSubmit, hp, htask, if_neg hname]
    refine ⟨by trivial, ?_, ?_⟩
    · simp only [List.mem_append, List.mem_singleton]
      tauto
    · intro a ha hurl
      have hC := attachmentSteps_attempted env task.gid f.selectedAttachments a ha hurl
      simp only [List.mem_append]
      tauto
  · intro hmode task hsel hcomment
    simp only [runSubmit, if_pos hmode, runCommentSubmit, hsel, hcomment]
    refine ⟨by trivial, ?_, ?_⟩
    · simp only [List.mem_append, List.mem_singleton]
      tauto
    · intro a ha hurl
      have hC := attachmentSteps_attempted env task.gid f.selectedAttachments a ha hurl
      simp only [List.mem_append]
      tauto

/-- Witness for `c8_post_steps_best_effort`: the first attachment's
download fails and every upload is rejected, yet the submission succeeds
and both attachments are attempted. -/
theorem c8_post_steps_best_effort_witness :
    formEx.mode ≠ "comment" ∧ jsTrim formEx.taskName ≠ "" ∧
    composerP1.selectedProject = some projP1 ∧
    submitEnvFailEx.createResult = .ok { gid := "T1", name := "Invoice" } ∧
    (runSubmit submitEnvFailEx composerP1 formEx emailDataEx).2 = .success "T1" ∧
    SubmitStep.downloadAtt "u1" ∈ (runSubmit submitEnvFailEx composerP1 formEx emailDataEx).1 ∧
    SubmitStep.downloadAtt "u2" ∈ (runSubmit submitEnvFailEx composerP1 formEx emailDataEx).1 := by
  have h := (c8_post_steps_best_effort submitEnvFailEx composerP1 formEx emailDataEx).1
    (by decide) (by decide) projP1 (by decide) { gid := "T1", name := "Invoice" } rfl
  exact ⟨by decide, by decide, by decide, rfl, h.1,
    h.2.2 { url := "u1", name := "a.pdf" } (by decide) (by decide),
    h.2.2 { url := "u2", name := "b.pdf" } (by decide) (by decide)⟩

/-! ### Gateway message dispatch (C9) -/

/-- Claim C9 — the gateway responds to every incoming message with either a
plain result or an `{error: message}` object and never lets an exception
cross the message-passing boundary: a resolving handler's payload is
passed through, a rejecting handler's message becomes the error object,
and a message whose type is outside the closed accepted set yields the
unknown-type error response rather than an unhandled throw. -/
theorem c9_gateway_never_throws (env : GatewayEnv) (m : RpcMessage) :
    (∀ r, handleMessage env m = .ok r → listenerResponse env m = .result r) ∧
    (∀ err, handleMessage env m = .error err → listenerResponse env m = .errorObj err) ∧
    (m.mtype ∉ acceptedTypes →
      listenerResponse env m = .errorObj ("Unknown message type: " ++ m.mtype)) := by
  refine ⟨?_, ?_, ?_⟩
  · intro r h
    simp [listenerResponse, h]
  · intro err h
    simp [listenerResponse, h]
  · intro h
    simp only [acceptedTypes, List.mem_cons, List.not_mem_nil, or_false, not_or] at h
    obtain ⟨h1, h2, h3, h4, h5, h6, h7, h8, h9, h10, h11, h12, h13, h14, h15, h16⟩ := h
    simp [listenerResponse, handleMessage,
      h1, h2, h3, h4, h5, h6, h7, h8, h9, h10, h11, h12, h13, h14, h15, h16]

/-- Witness for `c9_gateway_never_throws`: an unknown message type gets
the error-object response. -/
theorem c9_gateway_never_throws_witness :
    ("BOGUS_TYPE" : String) ∉ acceptedTypes ∧
    listenerResponse gwEnvEx { mtype := "BOGUS_TYPE" } =
      .errorObj ("Unknown message type: " ++ "BOGUS_TYPE") :=
  ⟨by decide, (c9_gateway_never_throws gwEnvEx { mtype := "BOGUS_TYPE" }).2.2 (by decide)⟩

end GmailAsana
